import Mathlib

/-!
# Configuration validation of discord-command-executor

A shallow embedding of `internal/config/validation.go` and of `Load` and `setDefaults` of
`internal/config/config.go`, with the properties of the validators and of loading.

Modelling conventions:

* a Go `string` holding valid UTF-8 text is a Lean `String`; `len` is the length of
  the UTF-8 encoding in bytes, `range` walks the runes;
* a Go `int` is an `Int` (the validators only compare, they never compute);
* a Go `float64` is a `Float64` below: the values an ordering comparison can tell apart;
* a Go `error` is an `Option String`: `none` is `nil`, `some msg` an error whose
  `Error()` text is `msg`;
* a `[]string` that is only appended to is a `List String`;
* the viper library is not part of the repository: `Load` takes its calls as a parameter,
  and the statements about what the library resolves run `Load` on a model of the library
  written from the specification. On two points the model follows the library as `Load`
  configures it and not the wording of the specification: a variable set to the empty text
  counts as unset, and deserialization sees the keys that the store holds, which is what
  `Load` binds its 18 keys for.
-/

namespace DiscordConfig

/-! ## Go primitives used by the validators -/

/-- The values of a Go `float64` as far as `<`, `<=`, `>` can tell them apart: the
not-a-number value, the two infinities, and the finite values (both zeros are `finite 0`). -/
inductive Float64 where
  | nan : Float64
  | negInf : Float64
  | posInf : Float64
  | finite (q : ℚ) : Float64
deriving DecidableEq

/-- The Go comparison `a <= b` on `float64`: false as soon as one side is not a number. -/
def Float64.le : Float64 → Float64 → Bool
  | .nan, _ => false
  | _, .nan => false
  | .negInf, _ => true
  | _, .posInf => true
  | .posInf, _ => false
  | _, .negInf => false
  | .finite a, .finite b => decide (a ≤ b)

/-- The Go comparison `a < b` on `float64`: false as soon as one side is not a number. -/
def Float64.lt : Float64 → Float64 → Bool
  | .nan, _ => false
  | _, .nan => false
  | _, .negInf => false
  | .posInf, _ => false
  | .negInf, _ => true
  | _, .posInf => true
  | .finite a, .finite b => decide (a < b)

/-- The Go comparison `a > b` on `float64`. -/
def Float64.gt (a b : Float64) : Bool := Float64.lt b a

/-- The builtin `len` on a string: the number of bytes of its UTF-8 encoding. -/
def len (s : String) : Nat := s.utf8ByteSize

/-- Search loop of `strings.Contains`: does `substr` start at some position of the text. -/
def containsFrom (substr : List Char) : List Char → Bool
  | [] => substr.isPrefixOf []
  | c :: cs => substr.isPrefixOf (c :: cs) || containsFrom substr cs

/-- The library call `strings.Contains(s, substr)`. -/
def Contains (s substr : String) : Bool := containsFrom substr.data s.data

/-- The library call `strings.Join(elems, sep)`. -/
def Join : List String → String → String
  | [], _ => ""
  | [a], _ => a
  | a :: b :: rest, sep => a ++ sep ++ Join (b :: rest) sep

/-- The library call `unicode.ToLower(r)`: the ASCII range is computed in place, every
other rune is looked up in the Unicode case table, which is the parameter `caseTable`. -/
def unicodeToLower (caseTable : Char → Char) (r : Char) : Char :=
  if r.toNat ≤ 127 then
    if 'A' ≤ r ∧ r ≤ 'Z' then Char.ofNat (r.toNat + ('a'.toNat - 'A'.toNat)) else r
  else caseTable r

/-- The library call `strings.ToLower(s)`: every rune mapped by `unicode.ToLower`. -/
def ToLower (caseTable : Char → Char) (s : String) : String :=
  String.mk (s.data.map (unicodeToLower caseTable))

/-- Indexing a `map[string]bool` literal: the stored value, `false` for an absent key. -/
def mapIndex (m : List (String × Bool)) (key : String) : Bool :=
  match m.find? (fun kv => kv.1 == key) with
  | some kv => kv.2
  | none => false

/-! ## The configuration types (`config.go`) -/

/-- The struct `BotConfig`. -/
structure BotConfig where
  Token : String
  Prefix : String
  GuildID : String
  MaxConcurrentCommands : Int
deriving DecidableEq

/-- The struct `DockerConfig`. -/
structure DockerConfig where
  Host : String
  NetworkName : String
  CPULimit : Float64
  DefaultTimeout : Int
  MaxRuntime : Int
  MemoryLimit : Int
deriving DecidableEq

/-- The struct `LoggingConfig`. -/
structure LoggingConfig where
  Level : String
  Format : String
  OutputFile : String
  ReportCaller : Bool
deriving DecidableEq

/-- The struct `ServerConfig`. -/
structure ServerConfig where
  Host : String
  Port : Int
  ReadTimeout : Int
  WriteTimeout : Int
deriving DecidableEq

/-- The struct `Config`. -/
structure Config where
  Bot : BotConfig
  Docker : DockerConfig
  Logging : LoggingConfig
  Server : ServerConfig
deriving DecidableEq

/-! ## Validation constants (`validation.go`) -/

def MaxDefaultTimeoutSeconds : Int := 3600
def MaxRuntimeSeconds : Int := 7200
def MaxReadWriteTimeout : Int := 300
def MinTokenLength : Nat := 10
def MinRealTokenLength : Nat := 50

/-! ## The validators (`validation.go`) -/

/-- The character test inside the loop of `isValidBotToken`. -/
def tokenCharOK (char : Char) : Bool :=
  (decide (char ≥ 'a') && decide (char ≤ 'z')) ||
  (decide (char ≥ 'A') && decide (char ≤ 'Z')) ||
  (decide (char ≥ '0') && decide (char ≤ '9')) ||
  char == '.' || char == '-' || char == '_'

/-- The loop `for _, char := range token` of `isValidBotToken`: leaves with `false` at the
first rune outside the set, and falls through to `return true`. -/
def tokenCharLoop : List Char → Bool
  | [] => true
  | char :: rest => if !(tokenCharOK char) then false else tokenCharLoop rest

/-- The function `isValidBotToken`. -/
def isValidBotToken (token : String) : Bool :=
  if Contains token "test" || Contains token "testing" then
    decide (len token ≥ MinTokenLength)
  else if len token < MinRealTokenLength then
    false
  else
    tokenCharLoop token.data

/-- The slice `errors` of `validateBotConfig` when it reaches `len(errors) > 0`. -/
def validateBotConfig.errors (config : BotConfig) : List String :=
  let errors : List String := []
  let errors := if config.Token = "" then
    errors ++ ["bot token is required (set DCE_BOT_TOKEN environment variable)"] else errors
  let errors := if config.Token ≠ "" ∧ !(isValidBotToken config.Token) then
    errors ++ ["bot token appears to be invalid format"] else errors
  let errors := if config.Prefix = "" then
    errors ++ ["command prefix cannot be empty"] else errors
  let errors := if config.MaxConcurrentCommands < 1 then
    errors ++ ["max concurrent commands must be at least 1"] else errors
  let errors := if config.MaxConcurrentCommands > 100 then
    errors ++ ["max concurrent commands should not exceed 100"] else errors
  errors

/-- The function `validateBotConfig`. -/
def validateBotConfig (config : BotConfig) : Option String :=
  let errors := validateBotConfig.errors config
  if errors.length > 0 then some (Join errors "; ") else none

/-- The slice `errors` of `validateDockerConfig` when it reaches `len(errors) > 0`. -/
def validateDockerConfig.errors (config : DockerConfig) : List String :=
  let errors : List String := []
  let errors := if config.Host = "" then
    errors ++ ["docker host cannot be empty"] else errors
  let errors := if config.DefaultTimeout < 1 then
    errors ++ ["default timeout must be at least 1 second"] else errors
  let errors := if config.DefaultTimeout > MaxDefaultTimeoutSeconds then
    errors ++ ["default timeout should not exceed 1 hour"] else errors
  let errors := if config.MaxRuntime < 1 then
    errors ++ ["max runtime must be at least 1 second"] else errors
  let errors := if config.MaxRuntime > MaxRuntimeSeconds then
    errors ++ ["max runtime should not exceed 2 hours"] else errors
  let errors := if config.MemoryLimit < 16 then
    errors ++ ["memory limit must be at least 16 MB"] else errors
  let errors := if config.MemoryLimit > 4096 then
    errors ++ ["memory limit should not exceed 4096 MB"] else errors
  let errors := if Float64.le config.CPULimit (.finite 0) then
    errors ++ ["CPU limit must be greater than 0"] else errors
  let errors := if Float64.gt config.CPULimit (.finite 8) then
    errors ++ ["CPU limit should not exceed 8.0"] else errors
  let errors := if config.NetworkName = "" then
    errors ++ ["network name cannot be empty"] else errors
  errors

/-- The function `validateDockerConfig`. -/
def validateDockerConfig (config : DockerConfig) : Option String :=
  let errors := validateDockerConfig.errors config
  if errors.length > 0 then some (Join errors "; ") else none

/-- The map literal `validLevels` of `validateLoggingConfig`. -/
def validLevels : List (String × Bool) :=
  [("debug", true), ("info", true), ("warn", true), ("error", true), ("fatal", true),
   ("panic", true)]

/-- The map literal `validFormats` of `validateLoggingConfig`. -/
def validFormats : List (String × Bool) :=
  [("json", true), ("text", true)]

/-- The slice `errors` of `validateLoggingConfig` when it reaches `len(errors) > 0`. -/
def validateLoggingConfig.errors (caseTable : Char → Char) (config : LoggingConfig) :
    List String :=
  let errors : List String := []
  let errors := if !(mapIndex validLevels (ToLower caseTable config.Level)) then
    errors ++ ["log level must be one of: debug, info, warn, error, fatal, panic"] else errors
  let errors := if !(mapIndex validFormats (ToLower caseTable config.Format)) then
    errors ++ ["log format must be either 'json' or 'text'"] else errors
  errors

/-- The function `validateLoggingConfig`. -/
def validateLoggingConfig (caseTable : Char → Char) (config : LoggingConfig) : Option String :=
  let errors := validateLoggingConfig.errors caseTable config
  if errors.length > 0 then some (Join errors "; ") else none

/-- The slice `errors` of `validateServerConfig` when it reaches `len(errors) > 0`. -/
def validateServerConfig.errors (config : ServerConfig) : List String :=
  let errors : List String := []
  let errors := if config.Port < 1 ∨ config.Port > 65535 then
    errors ++ ["server port must be between 1 and 65535"] else errors
  let errors := if config.ReadTimeout < 1 then
    errors ++ ["read timeout must be at least 1 second"] else errors
  let errors := if config.ReadTimeout > MaxReadWriteTimeout then
    errors ++ ["read timeout should not exceed 300 seconds"] else errors
  let errors := if config.WriteTimeout < 1 then
    errors ++ ["write timeout must be at least 1 second"] else errors
  let errors := if config.WriteTimeout > MaxReadWriteTimeout then
    errors ++ ["write timeout should not exceed 300 seconds"] else errors
  errors

/-- The function `validateServerConfig`. -/
def validateServerConfig (config : ServerConfig) : Option String :=
  let errors := validateServerConfig.errors config
  if errors.length > 0 then some (Join errors "; ") else none

/-- The slice `errors` of `validateConfig` when it reaches `len(errors) > 0`. -/
def validateConfig.errors (caseTable : Char → Char) (config : Config) : List String :=
  let errors : List String := []
  let errors := match validateBotConfig config.Bot with
    | some err => errors ++ ["bot config: " ++ err]
    | none => errors
  let errors := match validateDockerConfig config.Docker with
    | some err => errors ++ ["docker config: " ++ err]
    | none => errors
  let errors := match validateLoggingConfig caseTable config.Logging with
    | some err => errors ++ ["logging config: " ++ err]
    | none => errors
  let errors := match validateServerConfig config.Server with
    | some err => errors ++ ["server config: " ++ err]
    | none => errors
  errors

/-- The function `validateConfig`. -/
def validateConfig (caseTable : Char → Char) (config : Config) : Option String :=
  let errors := validateConfig.errors caseTable config
  if errors.length > 0 then some ("validation errors: " ++ Join errors "; ") else none

/-! ## Loading (`config.go`), with the configuration library as a parameter -/

/-- The constant `DefaultDockerTimeout` of `config.go`, in seconds. -/
def DefaultDockerTimeout : Int := 30

/-- The constant `DefaultMaxRuntime` of `config.go`, in seconds. -/
def DefaultMaxRuntime : Int := 300

/-- A value handed to `viper.SetDefault`, or held by a configuration source: the Go types
`string`, `int`, `float64` and `bool` behind `interface{}`. -/
inductive Value where
  | str (s : String) : Value
  | int (n : Int) : Value
  | float (f : Float64) : Value
  | bool (b : Bool) : Value

/-- The error of `viper.ReadInConfig`, with its text: a `viper.ConfigFileNotFoundError`, or
an error of any other type. -/
inductive ReadError where
  | configFileNotFound (msg : String) : ReadError
  | other (msg : String) : ReadError

/-- The calls that `Load` and `setDefaults` make on the package-level viper instance. The
library is not part of the repository: `σ` is the state of the instance, every call takes
the state and gives the next one, and an `error` result is its text. -/
structure Viper (σ : Type) where
  SetDefault : String → Value → σ → σ
  SetConfigName : String → σ → σ
  SetConfigType : String → σ → σ
  AddConfigPath : String → σ → σ
  AutomaticEnv : σ → σ
  SetEnvPrefix : String → σ → σ
  SetEnvKeyReplacer : String → String → σ → σ
  BindEnv : String → σ → Option String × σ
  ReadInConfig : σ → Option ReadError × σ
  Unmarshal : σ → Except String Config

/-- The function `setDefaults`. -/
def setDefaults {σ : Type} (viper : Viper σ) (s : σ) : σ :=
  let s := viper.SetDefault "bot.prefix" (.str "!") s
  let s := viper.SetDefault "bot.max_concurrent_commands" (.int 10) s
  let s := viper.SetDefault "docker.host" (.str "unix:///var/run/docker.sock") s
  let s := viper.SetDefault "docker.default_timeout" (.int DefaultDockerTimeout) s
  let s := viper.SetDefault "docker.max_runtime" (.int DefaultMaxRuntime) s
  let s := viper.SetDefault "docker.memory_limit" (.int 128) s
  let s := viper.SetDefault "docker.cpu_limit" (.float (.finite (1 / 2))) s
  let s := viper.SetDefault "docker.network_name" (.str "discord-executor") s
  let s := viper.SetDefault "logging.level" (.str "info") s
  let s := viper.SetDefault "logging.format" (.str "text") s
  let s := viper.SetDefault "logging.report_caller" (.bool false) s
  let s := viper.SetDefault "server.host" (.str "0.0.0.0") s
  let s := viper.SetDefault "server.port" (.int 8080) s
  let s := viper.SetDefault "server.read_timeout" (.int 10) s
  let s := viper.SetDefault "server.write_timeout" (.int 10) s
  s

/-- The slice `envBindings` of `Load`. -/
def envBindings : List String :=
  ["bot.token", "bot.prefix", "bot.guild_id", "bot.max_concurrent_commands", "docker.host",
   "docker.default_timeout", "docker.max_runtime", "docker.memory_limit", "docker.cpu_limit",
   "docker.network_name", "logging.level", "logging.format", "logging.output_file",
   "logging.report_caller", "server.host", "server.port", "server.read_timeout",
   "server.write_timeout"]

/-- The loop `for _, key := range envBindings` of `Load`: the error it returns with, if any
`viper.BindEnv` fails. -/
def Load.bindEnvs {σ : Type} (viper : Viper σ) : List String → σ → Option String × σ
  | [], s => (none, s)
  | key :: rest, s =>
    match viper.BindEnv key s with
    | (some err, s) =>
      (some ("failed to bind environment variable for " ++ key ++ ": " ++ err), s)
    | (none, s) => Load.bindEnvs viper rest s

/-- The statements of `Load` before the loop: defaults, config file search, environment. -/
def Load.configure {σ : Type} (viper : Viper σ) (s : σ) : σ :=
  let s := setDefaults viper s
  let s := viper.SetConfigName "config" s
  let s := viper.SetConfigType "yaml" s
  let s := viper.AddConfigPath "./configs" s
  let s := viper.AddConfigPath "." s
  let s := viper.AddConfigPath "/etc/discord-command-executor" s
  let s := viper.AutomaticEnv s
  let s := viper.SetEnvPrefix "DCE" s
  let s := viper.SetEnvKeyReplacer "." "_" s
  s

/-- The function `Load`: the returned `(*Config, error)` pair, and the state in which it
leaves the viper instance. The log lines are left out. -/
def Load {σ : Type} (caseTable : Char → Char) (viper : Viper σ) (s : σ) :
    (Option Config × Option String) × σ :=
  let s := Load.configure viper s
  match Load.bindEnvs viper envBindings s with
  | (some err, s) => ((none, some err), s)
  | (none, s) =>
    match viper.ReadInConfig s with
    | (some (.other msg), s) => ((none, some ("failed to read config file: " ++ msg)), s)
    | (_, s) =>
      match viper.Unmarshal s with
      | .error msg => ((none, some ("failed to unmarshal configuration: " ++ msg)), s)
      | .ok config =>
        match validateConfig caseTable config with
        | some msg => ((none, some ("configuration validation failed: " ++ msg)), s)
        | none => ((some config, none), s)

/-! ## The configuration library, modelled from the specification -/

/-- Modelled from the spec: what lies outside the resolver (§4.2, §6). The viper library
is missing from the sources, so its surroundings are the environment variables, and for a
directory and a base name the structured file found there: absent, unparsable (with the
text of the parse failure), or parsed into its dotted keys and values. -/
structure World where
  env : String → Option String
  fileAt : String → String → Option (Except String (List (String × Value)))

/-- Modelled from the spec: the in-memory key-value store of the resolver (§4.2 steps 1, 2,
4 and 5), which stands for the state of the missing viper instance: the Defaults Table, the
values overlaid from the file, the file's base name, format and search path, and how keys
are mapped to environment variables. -/
structure Store where
  defaults : List (String × Value)
  fileValues : List (String × Value)
  configName : String
  configType : String
  configPaths : List String
  automaticEnv : Bool
  envPrefix : String
  envKeyReplacer : Option (String × String)
  boundKeys : List String

/-- Modelled from the spec: the store of a process that has not configured the missing
library yet (§3, one configuration per process start): nothing is set. -/
def Store.fresh : Store := ⟨[], [], "", "", [], false, "", none, []⟩

/-- Modelled from the spec: the value a table of the store holds for a dotted key (§4.1,
"queried by dotted key"); of two entries for a key the later one counts. -/
def lookupKey (key : String) : List (String × Value) → Option Value
  | [] => none
  | (k, v) :: rest => if k = key then some v else lookupKey key rest

/-- Modelled from the spec: the name-mangling rule for environment variables (§4.2 step 5,
§6): the key behind the application prefix and `_`, upper-cased, with every occurrence of
the replaced character (`.` in `Load`) turned into its replacement (`_`). -/
def envVarNameWith (envPrefix : String) (replacer : Option (String × String)) (key : String) :
    String :=
  let name := if envPrefix = "" then key else envPrefix ++ "_" ++ key
  let upper := name.data.map Char.toUpper
  match replacer with
  | some (old, new) => String.mk (upper.flatMap (fun c => if [c] = old.data then new.data else [c]))
  | none => String.mk upper

/-- Modelled from the spec: the environment variable of a key in a store (§4.2 step 5). -/
def envVarName (s : Store) (key : String) : String :=
  envVarNameWith s.envPrefix s.envKeyReplacer key

/-- Modelled from the spec: reading one environment variable (§4.2 step 5, "any environment
variable present"). The specification does not say what a variable set to the empty text is:
the library counts it as unset unless its `AllowEmptyEnv` is called, which `Load` never does,
and so does this definition. -/
def getEnv (w : World) (name : String) : Option String :=
  match w.env name with
  | some text => if text = "" then none else some text
  | none => none

/-- Modelled from the spec: layered resolution of one key (§4.2 steps 4 and 5, glossary):
an environment variable that `getEnv` reads wins, as a string value, over the file, and the
file wins over the Defaults Table; a key found nowhere has no value. -/
def resolve (w : World) (s : Store) (key : String) : Option Value :=
  match (if s.automaticEnv = true ∨ key ∈ s.boundKeys then getEnv w (envVarName s key)
         else none) with
  | some text => some (.str text)
  | none =>
    match lookupKey key s.fileValues with
    | some v => some v
    | none => lookupKey key s.defaults

/-- Modelled from the spec: whether the merged store holds a key when it is deserialized
(§4.2 step 6): the key was bound to its environment variable, or the file or the Defaults
Table has it. The automatic mapping of step 5 does not by itself put a key into the store:
this is what the comment above `envBindings` in `Load` says the 18 keys are bound for. -/
def knownKey (s : Store) (key : String) : Bool :=
  decide (key ∈ s.boundKeys) || (lookupKey key s.fileValues).isSome ||
    (lookupKey key s.defaults).isSome

/-- Modelled from the spec: the value that the merged store hands to deserialization for a
key (§4.2 step 6): the resolved value of a key the store holds, nothing for any other. -/
def setting (w : World) (s : Store) (key : String) : Option Value :=
  if knownKey s key = true then resolve w s key else none

/-- Modelled from the spec: coercion of a resolved value to the declared type of a field
(§4.2 step 5); a failure is a `ConfigParseError`, given by its text. The conversions of the
missing library are the four functions. -/
structure Coercion where
  toStr : Value → Except String String
  toInt : Value → Except String Int
  toFloat : Value → Except String Float64
  toBool : Value → Except String Bool

/-- Modelled from the spec: a coercion leaves a value that already has the declared type
as it is (§4.2 step 5 coerces "to the field's declared type"). -/
def Coercion.KeepsTyped (co : Coercion) : Prop :=
  (∀ s, co.toStr (.str s) = .ok s) ∧ (∀ n, co.toInt (.int n) = .ok n) ∧
  (∀ f, co.toFloat (.float f) = .ok f) ∧ (∀ b, co.toBool (.bool b) = .ok b)

/-- Modelled from the spec: a coercion reads the text of a variable into the declared type
(§4.2 step 5, "string values are coerced to the field's declared type (integer, float,
boolean)"): the decimal numeral of a natural number below `2 ^ 31` is read as that integer
and as that float, and `true` and `false` are read as the booleans. -/
def Coercion.ReadsText (co : Coercion) : Prop :=
  (∀ n : Nat, n < 2 ^ 31 → co.toInt (.str (toString n)) = .ok (n : Int)) ∧
  (∀ n : Nat, n < 2 ^ 31 → co.toFloat (.str (toString n)) = .ok (.finite (n : ℚ))) ∧
  co.toBool (.str "true") = .ok true ∧ co.toBool (.str "false") = .ok false

/-- Modelled from the spec: deserializing one field (§4.2 step 6): a missing key leaves the
zero value, a resolved value is coerced to the field's type. -/
def decodeField {α : Type} (conv : Value → Except String α) (zero : α) :
    Option Value → Except String α
  | none => .ok zero
  | some v => conv v

/-- Modelled from the spec: deserializing the merged store into the typed configuration
(§4.2 step 6, with the keys of §6 and the field types of §3); the first coercion failure is
the error. -/
def specUnmarshal (co : Coercion) (w : World) (s : Store) : Except String Config := do
  let token ← decodeField co.toStr "" (setting w s "bot.token")
  let pre ← decodeField co.toStr "" (setting w s "bot.prefix")
  let guildID ← decodeField co.toStr "" (setting w s "bot.guild_id")
  let maxConcurrent ← decodeField co.toInt 0 (setting w s "bot.max_concurrent_commands")
  let dockerHost ← decodeField co.toStr "" (setting w s "docker.host")
  let networkName ← decodeField co.toStr "" (setting w s "docker.network_name")
  let cpuLimit ← decodeField co.toFloat (.finite 0) (setting w s "docker.cpu_limit")
  let defaultTimeout ← decodeField co.toInt 0 (setting w s "docker.default_timeout")
  let maxRuntime ← decodeField co.toInt 0 (setting w s "docker.max_runtime")
  let memoryLimit ← decodeField co.toInt 0 (setting w s "docker.memory_limit")
  let level ← decodeField co.toStr "" (setting w s "logging.level")
  let format ← decodeField co.toStr "" (setting w s "logging.format")
  let outputFile ← decodeField co.toStr "" (setting w s "logging.output_file")
  let reportCaller ← decodeField co.toBool false (setting w s "logging.report_caller")
  let serverHost ← decodeField co.toStr "" (setting w s "server.host")
  let port ← decodeField co.toInt 0 (setting w s "server.port")
  let readTimeout ← decodeField co.toInt 0 (setting w s "server.read_timeout")
  let writeTimeout ← decodeField co.toInt 0 (setting w s "server.write_timeout")
  pure ⟨⟨token, pre, guildID, maxConcurrent⟩,
    ⟨dockerHost, networkName, cpuLimit, defaultTimeout, maxRuntime, memoryLimit⟩,
    ⟨level, format, outputFile, reportCaller⟩, ⟨serverHost, port, readTimeout, writeTimeout⟩⟩

/-- Modelled from the spec: locating the configuration file (§4.2 step 2): the directories
are searched in order and the first match wins. -/
def findConfigFile (w : World) (name : String) :
    List String → Option (Except String (List (String × Value)))
  | [] => none
  | dir :: rest =>
    match w.fileAt dir name with
    | some file => some file
    | none => findConfigFile w name rest

/-- Modelled from the spec: reading the configuration file (§4.2 steps 2 to 4): no match is
the not-found outcome, which is not an error for `Load`; an unparsable file is an error
naming the parse failure; a parsed file is overlaid onto the store. -/
def specReadInConfig (w : World) (s : Store) : Option ReadError × Store :=
  match findConfigFile w s.configName s.configPaths with
  | none => (some (.configFileNotFound "config file not found"), s)
  | some (.error msg) => (some (.other msg), s)
  | some (.ok values) => (none, { s with fileValues := values })

/-- Modelled from the spec: the calls of the missing viper library as operations on the
store (§4.2): setting a default or a search parameter records it, binding a key to its
environment variable records the key and cannot fail, reading the file and deserializing
are as above. -/
def specViper (co : Coercion) (w : World) : Viper Store where
  SetDefault := fun key value s => { s with defaults := (key, value) :: s.defaults }
  SetConfigName := fun name s => { s with configName := name }
  SetConfigType := fun type s => { s with configType := type }
  AddConfigPath := fun dir s => { s with configPaths := s.configPaths ++ [dir] }
  AutomaticEnv := fun s => { s with automaticEnv := true }
  SetEnvPrefix := fun p s => { s with envPrefix := p }
  SetEnvKeyReplacer := fun old new s => { s with envKeyReplacer := some (old, new) }
  BindEnv := fun key s => (none, { s with boundKeys := key :: s.boundKeys })
  ReadInConfig := specReadInConfig w
  Unmarshal := specUnmarshal co w

/-! ## Vocabulary of the specification -/

/-- The character set `[A-Za-z0-9._-]` of the token-shape check, written out. -/
def tokenAlphabet : List Char :=
  "ABCDEFGHIJKLMNOPQRSTUVWXYZabcdefghijklmnopqrstuvwxyz0123456789._-".data

/-- A field rule of the validator: when a configuration violates it, and the message
fragment that reports the violation. -/
structure Rule where
  violated : Config → Bool
  fragment : String

/-- The five rules on the Bot section. -/
def botRules : List Rule :=
  [⟨fun c => c.Bot.Token = "", "bot token is required (set DCE_BOT_TOKEN environment variable)"⟩,
   ⟨fun c => c.Bot.Token ≠ "" ∧ isValidBotToken c.Bot.Token = false,
      "bot token appears to be invalid format"⟩,
   ⟨fun c => c.Bot.Prefix = "", "command prefix cannot be empty"⟩,
   ⟨fun c => c.Bot.MaxConcurrentCommands < 1, "max concurrent commands must be at least 1"⟩,
   ⟨fun c => c.Bot.MaxConcurrentCommands > 100, "max concurrent commands should not exceed 100"⟩]

/-- The ten rules on the Docker section. The two rules on `cpuLimit` are the two halves of
the constraint `0 < v ≤ 8.0`: each is violated when its half does not hold. -/
def dockerRules : List Rule :=
  [⟨fun c => c.Docker.Host = "", "docker host cannot be empty"⟩,
   ⟨fun c => c.Docker.DefaultTimeout < 1, "default timeout must be at least 1 second"⟩,
   ⟨fun c => c.Docker.DefaultTimeout > 3600, "default timeout should not exceed 1 hour"⟩,
   ⟨fun c => c.Docker.MaxRuntime < 1, "max runtime must be at least 1 second"⟩,
   ⟨fun c => c.Docker.MaxRuntime > 7200, "max runtime should not exceed 2 hours"⟩,
   ⟨fun c => c.Docker.MemoryLimit < 16, "memory limit must be at least 16 MB"⟩,
   ⟨fun c => c.Docker.MemoryLimit > 4096, "memory limit should not exceed 4096 MB"⟩,
   ⟨fun c => !(Float64.lt (.finite 0) c.Docker.CPULimit), "CPU limit must be greater than 0"⟩,
   ⟨fun c => !(Float64.le c.Docker.CPULimit (.finite 8)), "CPU limit should not exceed 8.0"⟩,
   ⟨fun c => c.Docker.NetworkName = "", "network name cannot be empty"⟩]

/-- The two rules on the Logging section. -/
def loggingRules (caseTable : Char → Char) : List Rule :=
  [⟨fun c => ToLower caseTable c.Logging.Level ∉
        ["debug", "info", "warn", "error", "fatal", "panic"],
      "log level must be one of: debug, info, warn, error, fatal, panic"⟩,
   ⟨fun c => ToLower caseTable c.Logging.Format ∉ ["json", "text"],
      "log format must be either 'json' or 'text'"⟩]

/-- The five rules on the Server section. -/
def serverRules : List Rule :=
  [⟨fun c => ¬ (1 ≤ c.Server.Port ∧ c.Server.Port ≤ 65535),
      "server port must be between 1 and 65535"⟩,
   ⟨fun c => c.Server.ReadTimeout < 1, "read timeout must be at least 1 second"⟩,
   ⟨fun c => c.Server.ReadTimeout > 300, "read timeout should not exceed 300 seconds"⟩,
   ⟨fun c => c.Server.WriteTimeout < 1, "write timeout must be at least 1 second"⟩,
   ⟨fun c => c.Server.WriteTimeout > 300, "write timeout should not exceed 300 seconds"⟩]

/-- All twenty-two field rules, section by section, each with the condition under which a
configuration violates it and the fragment that reports it. -/
def rules (caseTable : Char → Char) : List Rule :=
  botRules ++ dockerRules ++ loggingRules caseTable ++ serverRules

/-- The fragments reported for the rules of `rs` that `c` violates, in rule order. -/
def report (c : Config) (rs : List Rule) : List String :=
  (rs.filter (fun r => r.violated c)).map (fun r => r.fragment)

/-- The rule fragments that occur in a message. -/
def fragmentsIn (caseTable : Char → Char) (msg : String) : List String :=
  ((rules caseTable).filter (fun r => Contains msg r.fragment)).map (fun r => r.fragment)

/-- Number of separator characters `;` in a text. -/
def semis (s : String) : Nat := s.data.count ';'

/-- The configuration with every field at its zero value. -/
def zeroConfig : Config :=
  ⟨⟨"", "", "", 0⟩, ⟨"", "", .finite 0, 0, 0, 0⟩, ⟨"", "", "", false⟩, ⟨"", 0, 0, 0⟩⟩

/-- The valid configuration of the test suite with a `cpuLimit` that is not a number. -/
def nanCpuConfig : Config :=
  ⟨⟨"valid.test.token.for.unit.testing.purposes.only.not.real", "!", "", 5⟩,
   ⟨"unix:///var/run/docker.sock", "test-network", .nan, 30, 300, 128⟩,
   ⟨"info", "text", "", false⟩, ⟨"localhost", 8080, 10, 10⟩⟩

/-- The entries of the message of `validateConfig` as the specification gives them: for each
section, in the order bot, docker, logging, server, the message of its validator behind the
section label, when that validator fails. -/
def sectionReports (caseTable : Char → Char) (c : Config) : List String :=
  [("bot config: ", validateBotConfig c.Bot), ("docker config: ", validateDockerConfig c.Docker),
   ("logging config: ", validateLoggingConfig caseTable c.Logging),
   ("server config: ", validateServerConfig c.Server)].filterMap
    (fun p => p.2.map (fun err => p.1 ++ err))

/-- The level names of the specification. -/
def levelNames : List String := ["debug", "info", "warn", "error", "fatal", "panic"]

/-- The format names of the specification. -/
def formatNames : List String := ["json", "text"]

/-- Two texts are equal when compared case-insensitively: their lower-cased forms agree. -/
def eqIgnoreCase (caseTable : Char → Char) (a b : String) : Prop :=
  ToLower caseTable a = ToLower caseTable b

/-- The configuration whose fields hold the values that `setDefaults` gives their keys, with
the given bot token; `bot.guild_id` and `logging.output_file` have no default and are empty. -/
def defaultConfig (token : String) : Config :=
  ⟨⟨token, "!", "", 10⟩,
   ⟨"unix:///var/run/docker.sock", "discord-executor", .finite (1 / 2), DefaultDockerTimeout,
     DefaultMaxRuntime, 128⟩,
   ⟨"info", "text", "", false⟩, ⟨"0.0.0.0", 8080, 10, 10⟩⟩

/-- The fragments each constrained field can contribute, field by field: 3 fields of the Bot
section, 6 of Docker, 2 of Logging, 3 of Server. -/
def fieldFragments : List (List String) :=
  [["bot token is required (set DCE_BOT_TOKEN environment variable)",
    "bot token appears to be invalid format"],
   ["command prefix cannot be empty"],
   ["max concurrent commands must be at least 1", "max concurrent commands should not exceed 100"],
   ["docker host cannot be empty"],
   ["default timeout must be at least 1 second", "default timeout should not exceed 1 hour"],
   ["max runtime must be at least 1 second", "max runtime should not exceed 2 hours"],
   ["memory limit must be at least 16 MB", "memory limit should not exceed 4096 MB"],
   ["CPU limit must be greater than 0", "CPU limit should not exceed 8.0"],
   ["network name cannot be empty"],
   ["log level must be one of: debug, info, warn, error, fatal, panic"],
   ["log format must be either 'json' or 'text'"],
   ["server port must be between 1 and 65535"],
   ["read timeout must be at least 1 second", "read timeout should not exceed 300 seconds"],
   ["write timeout must be at least 1 second", "write timeout should not exceed 300 seconds"]]

/-- The environment variable that the specification gives a dotted key: `DCE_`, then the
upper-cased key with every `.` replaced by `_`. -/
def dceName (key : String) : String :=
  "DCE_" ++ String.mk (key.data.map (fun c => if c = '.' then '_' else c.toUpper))

/-- The fields that the 18 keys of `envBindings` are deserialized into: for a key, what it
means that the field of a configuration holds the value of an environment variable, coerced
to the field's declared type. -/
def envFields : List (String × (Coercion → Config → String → Prop)) :=
  [("bot.token", fun co cfg text => co.toStr (.str text) = .ok cfg.Bot.Token),
   ("bot.prefix", fun co cfg text => co.toStr (.str text) = .ok cfg.Bot.Prefix),
   ("bot.guild_id", fun co cfg text => co.toStr (.str text) = .ok cfg.Bot.GuildID),
   ("bot.max_concurrent_commands",
      fun co cfg text => co.toInt (.str text) = .ok cfg.Bot.MaxConcurrentCommands),
   ("docker.host", fun co cfg text => co.toStr (.str text) = .ok cfg.Docker.Host),
   ("docker.default_timeout",
      fun co cfg text => co.toInt (.str text) = .ok cfg.Docker.DefaultTimeout),
   ("docker.max_runtime", fun co cfg text => co.toInt (.str text) = .ok cfg.Docker.MaxRuntime),
   ("docker.memory_limit", fun co cfg text => co.toInt (.str text) = .ok cfg.Docker.MemoryLimit),
   ("docker.cpu_limit", fun co cfg text => co.toFloat (.str text) = .ok cfg.Docker.CPULimit),
   ("docker.network_name", fun co cfg text => co.toStr (.str text) = .ok cfg.Docker.NetworkName),
   ("logging.level", fun co cfg text => co.toStr (.str text) = .ok cfg.Logging.Level),
   ("logging.format", fun co cfg text => co.toStr (.str text) = .ok cfg.Logging.Format),
   ("logging.output_file", fun co cfg text => co.toStr (.str text) = .ok cfg.Logging.OutputFile),
   ("logging.report_caller",
      fun co cfg text => co.toBool (.str text) = .ok cfg.Logging.ReportCaller),
   ("server.host", fun co cfg text => co.toStr (.str text) = .ok cfg.Server.Host),
   ("server.port", fun co cfg text => co.toInt (.str text) = .ok cfg.Server.Port),
   ("server.read_timeout", fun co cfg text => co.toInt (.str text) = .ok cfg.Server.ReadTimeout),
   ("server.write_timeout",
      fun co cfg text => co.toInt (.str text) = .ok cfg.Server.WriteTimeout)]

/-- The natural number that a text is the decimal numeral of, if it is one. -/
def readNat (text : String) : Option Nat :=
  let n := text.data.foldl (fun acc c => 10 * acc + (c.toNat - '0'.toNat)) 0
  if toString n = text then some n else none

/-- A coercion for worked examples: values of the declared type are kept; of the strings,
the decimal numerals of the natural numbers below `2 ^ 31` are read as integers and as
floats, and `true` and `false` as booleans. -/
def plainCoercion : Coercion where
  toStr := fun v => match v with
    | .str s => .ok s
    | _ => .error "expected a string"
  toInt := fun v => match v with
    | .int n => .ok n
    | .str text =>
      match readNat text with
      | some n => if n < 2 ^ 31 then .ok (n : Int) else .error "value out of range"
      | none => .error "expected an integer"
    | _ => .error "expected an integer"
  toFloat := fun v => match v with
    | .float f => .ok f
    | .str text =>
      match readNat text with
      | some n => if n < 2 ^ 31 then .ok (.finite (n : ℚ)) else .error "value out of range"
      | none => .error "expected a float"
    | _ => .error "expected a float"
  toBool := fun v => match v with
    | .bool b => .ok b
    | .str "true" => .ok true
    | .str "false" => .ok false
    | _ => .error "expected a boolean"

/-- The environment of the test suite: `DCE_BOT_TOKEN` alone is set. -/
def tokenOnlyWorld : World where
  env := fun name =>
    if name = "DCE_BOT_TOKEN" then some "test.token.for.testing.purposes.only.this.is.not.real"
    else none
  fileAt := fun _ _ => none

/-- The environment of `TestEnvironmentVariableOverrides`, cut down to token and prefix. -/
def prefixWorld : World where
  env := fun name =>
    if name = "DCE_BOT_TOKEN" then some "env.test.token.for.testing.purposes.only.not.real"
    else if name = "DCE_BOT_PREFIX" then some ">>"
    else none
  fileAt := fun _ _ => none

/-- The configuration of the defaults with the given token and command prefix. -/
def withPrefix (token pre : String) : Config :=
  ⟨⟨token, pre, "", 10⟩, (defaultConfig token).Docker, (defaultConfig token).Logging,
   (defaultConfig token).Server⟩

/-- The environment of `TestEnvironmentVariableOverrides` with three variables of typed keys
added, beside a config file in the working directory that sets three keys of its own. -/
def overridesWorld : World where
  env := fun name =>
    if name = "DCE_BOT_TOKEN" then some "env.test.token.for.testing.purposes.only.not.real"
    else if name = "DCE_BOT_PREFIX" then some ">>"
    else if name = "DCE_DOCKER_HOST" then some "tcp://localhost:2376"
    else if name = "DCE_LOGGING_LEVEL" then some "debug"
    else if name = "DCE_SERVER_PORT" then some "9090"
    else if name = "DCE_DOCKER_CPU_LIMIT" then some "2"
    else if name = "DCE_LOGGING_REPORT_CALLER" then some "true"
    else none
  fileAt := fun dir name =>
    if dir = "." ∧ name = "config" then
      some (.ok [("bot.prefix", .str "?"), ("server.port", .int 7070),
        ("server.host", .str "localhost")])
    else none

/-- The configuration that `overridesWorld` describes: the variables first, then the file
(`server.host`), then the defaults. -/
def overridesConfig : Config :=
  ⟨⟨"env.test.token.for.testing.purposes.only.not.real", ">>", "", 10⟩,
   ⟨"tcp://localhost:2376", "discord-executor", .finite 2, 30, 300, 128⟩,
   ⟨"debug", "text", "", true⟩, ⟨"localhost", 9090, 10, 10⟩⟩

/-- The environment of the test suite with two variables added that are set to the empty
text: `DCE_BOT_PREFIX` and `DCE_SERVER_HOST`. -/
def emptyVarsWorld : World where
  env := fun name =>
    if name = "DCE_BOT_TOKEN" then some "test.token.for.testing.purposes.only.this.is.not.real"
    else if name = "DCE_BOT_PREFIX" then some ""
    else if name = "DCE_SERVER_HOST" then some ""
    else none
  fileAt := fun _ _ => none

/-- The message of `validateConfig` on the all-zero configuration. -/
def zeroMessage : String :=
  "validation errors: bot config: bot token is required (set DCE_BOT_TOKEN environment variable); command prefix cannot be empty; max concurrent commands must be at least 1; docker config: docker host cannot be empty; default timeout must be at least 1 second; max runtime must be at least 1 second; memory limit must be at least 16 MB; CPU limit must be greater than 0; network name cannot be empty; logging config: log level must be one of: debug, info, warn, error, fatal, panic; log format must be either 'json' or 'text'; server config: server port must be between 1 and 65535; read timeout must be at least 1 second; write timeout must be at least 1 second"

/-- The valid configuration of the test suite with its token removed and the level
`invalid`. -/
def noTokenBadLevelConfig : Config :=
  ⟨⟨"", "!", "", 5⟩, ⟨"unix:///var/run/docker.sock", "test-network", .finite 8, 30, 300, 128⟩,
   ⟨"invalid", "text", "", false⟩, ⟨"localhost", 8080, 10, 10⟩⟩

/-! ## Auxiliary definitions of the proofs -/

/-- The ten checks of `validateDockerConfig` with the comparisons the code performs. -/
def dockerChecks : List Rule :=
  [⟨fun c => c.Docker.Host = "", "docker host cannot be empty"⟩,
   ⟨fun c => c.Docker.DefaultTimeout < 1, "default timeout must be at least 1 second"⟩,
   ⟨fun c => c.Docker.DefaultTimeout > 3600, "default timeout should not exceed 1 hour"⟩,
   ⟨fun c => c.Docker.MaxRuntime < 1, "max runtime must be at least 1 second"⟩,
   ⟨fun c => c.Docker.MaxRuntime > 7200, "max runtime should not exceed 2 hours"⟩,
   ⟨fun c => c.Docker.MemoryLimit < 16, "memory limit must be at least 16 MB"⟩,
   ⟨fun c => c.Docker.MemoryLimit > 4096, "memory limit should not exceed 4096 MB"⟩,
   ⟨fun c => Float64.le c.Docker.CPULimit (.finite 0), "CPU limit must be greater than 0"⟩,
   ⟨fun c => Float64.gt c.Docker.CPULimit (.finite 8), "CPU limit should not exceed 8.0"⟩,
   ⟨fun c => c.Docker.NetworkName = "", "network name cannot be empty"⟩]

/-- All twenty-two checks as the code performs them, section by section. -/
def checks (caseTable : Char → Char) : List Rule :=
  botRules ++ dockerChecks ++ loggingRules caseTable ++ serverRules

/-- What a rule says about a configuration: whether it is violated, and its fragment. -/
def verdict (c : Config) (r : Rule) : Bool × String := (r.violated c, r.fragment)

/-- One conditional append to an `errors` slice. -/
def opt (b : Bool) (f : String) : List String := if b then [f] else []

/-- What a section adds to the `errors` slice of `validateConfig`. -/
def sectionErr (label : String) (errs : List String) : List String :=
  if errs.length > 0 then [label ++ Join errs "; "] else []

/-- The `errors` slice of `validateConfig` built from labelled sections. -/
def assemble : List (String × List String) → List String
  | [] => []
  | p :: rest => sectionErr p.1 p.2 ++ assemble rest

/-- The four labelled sections of `validateConfig` with the fragments each one reports. -/
def configSections (caseTable : Char → Char) (c : Config) : List (String × List String) :=
  [("bot config: ", report c botRules), ("docker config: ", report c dockerChecks),
   ("logging config: ", report c (loggingRules caseTable)),
   ("server config: ", report c serverRules)]

/-- A piece of text that can be located inside a joined message: not empty, free of the
separator character, and not starting with a blank. -/
def Clean (f : List Char) : Prop := f ≠ [] ∧ ';' ∉ f ∧ f.head? ≠ some ' '

/-- The section labels with the fragments of their rules. -/
def sectionTable : List (String × List String) :=
  [("bot config: ", botRules.map (fun r => r.fragment)),
   ("docker config: ", dockerChecks.map (fun r => r.fragment)),
   ("logging config: ", (loggingRules id).map (fun r => r.fragment)),
   ("server config: ", serverRules.map (fun r => r.fragment))]

/-- Check that inside a labelled fragment no other rule fragment occurs. -/
def fragmentTable : Bool :=
  sectionTable.all fun p => p.2.all fun a => ((checks id).map (fun r => r.fragment)).all fun f =>
    !(containsFrom f.data ("validation errors: ".data ++ (p.1.data ++ a.data))) || f == a

/-- Check that every rule fragment can be located inside a joined message. -/
def fragmentsClean : Bool :=
  ((checks id).map (fun r => r.fragment)).all fun f =>
    !f.data.isEmpty && !(f.data.contains ';') && !(f.data.head? == some ' ')

/-- The Defaults Table as `setDefaults` leaves it in the store, last call first. -/
def loadDefaults : List (String × Value) :=
  [("server.write_timeout", .int 10), ("server.read_timeout", .int 10), ("server.port", .int 8080),
   ("server.host", .str "0.0.0.0"), ("logging.report_caller", .bool false),
   ("logging.format", .str "text"), ("logging.level", .str "info"),
   ("docker.network_name", .str "discord-executor"), ("docker.cpu_limit", .float (.finite (1 / 2))),
   ("docker.memory_limit", .int 128), ("docker.max_runtime", .int DefaultMaxRuntime),
   ("docker.default_timeout", .int DefaultDockerTimeout),
   ("docker.host", .str "unix:///var/run/docker.sock"), ("bot.max_concurrent_commands", .int 10),
   ("bot.prefix", .str "!")]

/-- The store in which the statements of `Load` before `viper.ReadInConfig` leave the
modelled library, started in the store `s`. -/
def loadStore (s : Store) : Store where
  defaults := loadDefaults ++ s.defaults
  fileValues := s.fileValues
  configName := "config"
  configType := "yaml"
  configPaths := s.configPaths ++ ["./configs"] ++ ["."] ++ ["/etc/discord-command-executor"]
  automaticEnv := true
  envPrefix := "DCE"
  envKeyReplacer := some (".", "_")
  boundKeys := envBindings.reverse ++ s.boundKeys

/-- The last statements of `Load`, from the result of `viper.Unmarshal` on. -/
def Load.finish (caseTable : Char → Char) : Except String Config → Option Config × Option String
  | .error msg => (none, some ("failed to unmarshal configuration: " ++ msg))
  | .ok config =>
    match validateConfig caseTable config with
    | some msg => (none, some ("configuration validation failed: " ++ msg))
    | none => (some config, none)

/-! ## Lemmas on characters and tokens -/

theorem char_le_iff (a b : Char) : a ≤ b ↔ a.toNat ≤ b.toNat := by
  rw [Char.le_def]; exact Iff.rfl

theorem utf8Size_of_le (c : Char) (h : c.toNat ≤ 127) : c.utf8Size = 1 := by
  unfold Char.utf8Size
  have h1 : c.val ≤ UInt32.ofNatCore 127 (by decide) := h
  exact if_pos h1

theorem utf8Size_le4 (c : Char) : c.utf8Size ≤ 4 := by
  rcases Char.utf8Size_eq c with h | h | h | h <;> omega

theorem tokenCharOK_iff (c : Char) : tokenCharOK c = true ↔
    (97 ≤ c.toNat ∧ c.toNat ≤ 122) ∨ (65 ≤ c.toNat ∧ c.toNat ≤ 90) ∨ (48 ≤ c.toNat ∧ c.toNat ≤ 57)
      ∨ c.toNat = 46 ∨ c.toNat = 45 ∨ c.toNat = 95 := by
  have e : ∀ d : Char, c = d ↔ c.toNat = d.toNat := fun d =>
    ⟨fun h => by rw [h], fun h => by rw [← Char.ofNat_toNat c, h, Char.ofNat_toNat]⟩
  simp only [tokenCharOK, Bool.or_eq_true, Bool.and_eq_true, decide_eq_true_eq, beq_iff_eq,
    ge_iff_le, char_le_iff, e]
  have h1 : 'a'.toNat = 97 := by decide
  have h2 : 'z'.toNat = 122 := by decide
  have h3 : 'A'.toNat = 65 := by decide
  have h4 : 'Z'.toNat = 90 := by decide
  have h5 : '0'.toNat = 48 := by decide
  have h6 : '9'.toNat = 57 := by decide
  have h7 : '.'.toNat = 46 := by decide
  have h8 : '-'.toNat = 45 := by decide
  have h9 : '_'.toNat = 95 := by decide
  rw [h1, h2, h3, h4, h5, h6, h7, h8, h9]
  tauto

theorem tokenCharOK_iff_mem (c : Char) : tokenCharOK c = true ↔ c ∈ tokenAlphabet := by
  constructor
  · intro h
    rw [tokenCharOK_iff] at h
    rw [← Char.ofNat_toNat c]
    generalize c.toNat = n at h
    rcases h with ⟨h1, h2⟩ | ⟨h1, h2⟩ | ⟨h1, h2⟩ | h | h | h
    · interval_cases n <;> decide
    · interval_cases n <;> decide
    · interval_cases n <;> decide
    · subst h; decide
    · subst h; decide
    · subst h; decide
  · intro h
    have : ∀ d ∈ tokenAlphabet, tokenCharOK d = true := by decide
    exact this c h

theorem containsFrom_iff (sub l : List Char) : containsFrom sub l = true ↔ sub <:+: l := by
  induction l with
  | nil => simp [containsFrom]
  | cons c cs ih =>
    simp only [containsFrom, Bool.or_eq_true, List.isPrefixOf_iff_prefix, ih, List.infix_cons_iff]

theorem Contains_iff (s sub : String) : Contains s sub = true ↔ sub.data <:+: s.data :=
  containsFrom_iff _ _

theorem Contains_testing (token : String) (h : Contains token "testing" = true) :
    Contains token "test" = true := by
  rw [Contains_iff] at h ⊢
  exact List.IsInfix.trans ⟨[], "ing".data, rfl⟩ h

theorem len_eq (s : String) : len s = String.utf8Len s.data := rfl

theorem tokenCharLoop_iff (l : List Char) :
    tokenCharLoop l = true ↔ ∀ c ∈ l, tokenCharOK c = true := by
  induction l with
  | nil => simp [tokenCharLoop]
  | cons c cs ih =>
    cases hc : tokenCharOK c <;> simp [tokenCharLoop, hc, ih]

theorem utf8Len_ascii (l : List Char) (h : ∀ c ∈ l, c.toNat ≤ 127) :
    String.utf8Len l = l.length := by
  induction l with
  | nil => rfl
  | cons c cs ih =>
    rw [String.utf8Len_cons, ih (fun d hd => h d (List.mem_cons_of_mem _ hd)),
      utf8Size_of_le c (h c (List.mem_cons_self _ _)), List.length_cons]

theorem length_le_utf8Len (l : List Char) : l.length ≤ String.utf8Len l := by
  induction l with
  | nil => simp
  | cons c cs ih =>
    have := Char.utf8Size_pos c
    rw [String.utf8Len_cons, List.length_cons]; omega

theorem isValidBotToken_test (token : String) (h : Contains token "test" = true) :
    isValidBotToken token = decide (len token ≥ MinTokenLength) := by
  simp [isValidBotToken, h]

theorem isValidBotToken_real (token : String) (h : Contains token "test" = false) :
    isValidBotToken token =
      (if len token < MinRealTokenLength then false else tokenCharLoop token.data) := by
  have h2 : Contains token "testing" = false := by
    cases h3 : Contains token "testing"
    · rfl
    · rw [Contains_testing token h3] at h; exact absurd h (by decide)
  simp [isValidBotToken, h, h2]


/-! ## Lemmas on joined messages -/

theorem data_Join_cons_cons (a b : String) (rest : List String) (sep : String) :
    (Join (a :: b :: rest) sep).data = a.data ++ (sep.data ++ (Join (b :: rest) sep).data) := by
  simp [Join, String.data_append]

theorem prefix_of_sep_free {f x y : List Char} (hf : ';' ∉ f) (h : f <+: x ++ ';' :: y) :
    f <+: x := by
  induction x generalizing f with
  | nil =>
    rcases List.prefix_cons_iff.1 h with h0 | ⟨t, ht, _⟩
    · subst h0; exact List.prefix_rfl
    · subst ht; exact absurd (List.mem_cons_self _ _) hf
  | cons a x ih =>
    rw [List.cons_append] at h
    rcases List.prefix_cons_iff.1 h with h0 | ⟨t, ht, h2⟩
    · subst h0; exact List.nil_prefix
    · subst ht
      have := ih (fun hm => hf (List.mem_cons_of_mem _ hm)) h2
      exact (List.prefix_cons_inj a).2 this

theorem infix_split_sep {f x y : List Char} (hf : ';' ∉ f) (h : f <:+: x ++ ';' :: y) :
    f <:+: x ∨ f <:+: y := by
  induction x with
  | nil =>
    rcases List.infix_cons_iff.1 h with h1 | h1
    · exact Or.inl (prefix_of_sep_free (x := []) hf h1).isInfix
    · exact Or.inr h1
  | cons a x ih =>
    rw [List.cons_append] at h
    rcases List.infix_cons_iff.1 h with h1 | h1
    · exact Or.inl (prefix_of_sep_free (x := a :: x) hf h1).isInfix
    · rcases ih h1 with h2 | h2
      · exact Or.inl (List.infix_cons_iff.2 (Or.inr h2))
      · exact Or.inr h2

theorem infix_drop_blank {f y : List Char} (hf : Clean f) (h : f <:+: ' ' :: y) : f <:+: y := by
  rcases List.infix_cons_iff.1 h with h1 | h1
  · rcases List.prefix_cons_iff.1 h1 with h0 | ⟨t, ht, _⟩
    · exact absurd h0 hf.1
    · subst ht; exact absurd rfl hf.2.2
  · exact h1

theorem infix_Join_segment {f : List Char} (hf : Clean f) (L : List String) (a : String)
    (p : List Char) (h : f <:+: p ++ (Join (a :: L) "; ").data) :
    f <:+: p ++ a.data ∨ ∃ s ∈ L, f <:+: s.data := by
  induction L generalizing a p with
  | nil => exact Or.inl h
  | cons b L ih =>
    rw [data_Join_cons_cons] at h
    have e : p ++ (a.data ++ ("; ".data ++ (Join (b :: L) "; ").data)) =
        (p ++ a.data) ++ ';' :: (' ' :: (Join (b :: L) "; ").data) := by
      simp
    rw [e] at h
    rcases infix_split_sep hf.2.1 h with h1 | h1
    · exact Or.inl h1
    · have h2 := infix_drop_blank hf h1
      rcases ih b [] (by simpa using h2) with h3 | ⟨s, hs, h3⟩
      · exact Or.inr ⟨b, List.mem_cons_self _ _, by simpa using h3⟩
      · exact Or.inr ⟨s, List.mem_cons_of_mem _ hs, h3⟩

theorem mem_infix_Join (L : List String) (sep s : String) (h : s ∈ L) :
    s.data <:+: (Join L sep).data := by
  induction L with
  | nil => cases h
  | cons a L ih =>
    cases L with
    | nil =>
      rw [List.mem_singleton] at h; subst h; exact List.infix_rfl
    | cons b L =>
      rw [data_Join_cons_cons]
      rcases List.mem_cons.1 h with h1 | h1
      · subst h1; exact (List.prefix_append _ _).isInfix
      · exact (ih h1).trans ⟨a.data ++ sep.data, [], by simp⟩

theorem semis_append (a b : String) : semis (a ++ b) = semis a + semis b := by
  simp [semis, String.data_append, List.count_append]

theorem semis_Join (a : String) (L : List String) :
    semis (Join (a :: L) "; ") + 1 = ((a :: L).map (fun s => semis s + 1)).sum := by
  induction L generalizing a with
  | nil => simp [Join]
  | cons b L ih =>
    have e : Join (a :: b :: L) "; " = a ++ "; " ++ Join (b :: L) "; " := rfl
    have h2 : semis "; " = 1 := by decide
    rw [e, semis_append, semis_append, h2, List.map_cons, List.sum_cons, ← ih b]
    omega

/-! ## The error slices as rule reports -/

theorem ite_append_opt (P : Prop) [Decidable P] (xs : List String) (f : String) :
    (if P then xs ++ [f] else xs) = xs ++ opt (decide P) f := by
  by_cases h : P <;> simp [h, opt]

theorem report_cons (c : Config) (r : Rule) (rs : List Rule) :
    report c (r :: rs) = opt (r.violated c) r.fragment ++ report c rs := by
  cases h : r.violated c <;> simp [report, opt, List.filter_cons, h]

theorem report_nil (c : Config) : report c [] = [] := rfl

theorem report_append (c : Config) (rs ss : List Rule) :
    report c (rs ++ ss) = report c rs ++ report c ss := by
  simp [report]

theorem bot_errors_eq (c : Config) : validateBotConfig.errors c.Bot = report c botRules := by
  simp only [validateBotConfig.errors, ite_append_opt]
  simp only [botRules, report_cons, report_nil, List.nil_append, List.append_nil,
    List.append_assoc]
  simp

theorem docker_errors_eq (c : Config) :
    validateDockerConfig.errors c.Docker = report c dockerChecks := by
  simp only [validateDockerConfig.errors, ite_append_opt]
  simp only [dockerChecks, report_cons, report_nil, List.nil_append, List.append_nil,
    List.append_assoc]
  simp [MaxDefaultTimeoutSeconds, MaxRuntimeSeconds]

theorem key_beq_false (a k : String) (h : ¬ k = a) : (a == k) = false := by
  simpa using Ne.symm h

theorem mapIndex_validLevels (k : String) :
    mapIndex validLevels k = decide (k ∈ ["debug", "info", "warn", "error", "fatal", "panic"]) := by
  by_cases h : k ∈ ["debug", "info", "warn", "error", "fatal", "panic"]
  · simp only [h, decide_True]
    simp only [List.mem_cons, List.mem_singleton, List.not_mem_nil, or_false] at h
    rcases h with h | h | h | h | h | h <;> subst h <;> decide
  · simp only [h, decide_False]
    simp only [List.mem_cons, List.mem_singleton, List.not_mem_nil, or_false, not_or] at h
    obtain ⟨h1, h2, h3, h4, h5, h6⟩ := h
    simp [mapIndex, validLevels, List.find?, key_beq_false _ _ h1, key_beq_false _ _ h2,
      key_beq_false _ _ h3, key_beq_false _ _ h4, key_beq_false _ _ h5,
      key_beq_false _ _ h6]

theorem mapIndex_validFormats (k : String) :
    mapIndex validFormats k = decide (k ∈ ["json", "text"]) := by
  by_cases h : k ∈ ["json", "text"]
  · simp only [h, decide_True]
    simp only [List.mem_cons, List.mem_singleton, List.not_mem_nil, or_false] at h
    rcases h with h | h <;> subst h <;> decide
  · simp only [h, decide_False]
    simp only [List.mem_cons, List.mem_singleton, List.not_mem_nil, or_false, not_or] at h
    obtain ⟨h1, h2⟩ := h
    simp [mapIndex, validFormats, List.find?, key_beq_false _ _ h1, key_beq_false _ _ h2]

theorem logging_errors_eq (caseTable : Char → Char) (c : Config) :
    validateLoggingConfig.errors caseTable c.Logging = report c (loggingRules caseTable) := by
  simp only [validateLoggingConfig.errors, ite_append_opt]
  simp only [loggingRules, report_cons, report_nil, List.nil_append, List.append_nil,
    List.append_assoc, mapIndex_validLevels, mapIndex_validFormats]
  simp

theorem server_errors_eq (c : Config) :
    validateServerConfig.errors c.Server = report c serverRules := by
  simp only [validateServerConfig.errors, ite_append_opt]
  simp only [serverRules, report_cons, report_nil, List.nil_append, List.append_nil,
    List.append_assoc]
  have e : decide (c.Server.Port < 1 ∨ c.Server.Port > 65535) =
      decide (¬ (1 ≤ c.Server.Port ∧ c.Server.Port ≤ 65535)) := by
    apply decide_eq_decide.2; omega
  rw [e]
  simp [MaxReadWriteTimeout]


/-! ## Assembling the message of `validateConfig` -/

set_option maxRecDepth 100000 in
theorem fragmentTable_ok : fragmentTable = true := by decide!

theorem fragmentsClean_ok : fragmentsClean = true := by decide

theorem checks_fragments (caseTable : Char → Char) :
    (checks caseTable).map (fun r => r.fragment) = (checks id).map (fun r => r.fragment) := rfl

theorem check_fragment_clean (caseTable : Char → Char) (r : Rule) (h : r ∈ checks caseTable) :
    Clean r.fragment.data := by
  have hm : r.fragment ∈ (checks id).map (fun r => r.fragment) := by
    rw [← checks_fragments caseTable]; exact List.mem_map_of_mem _ h
  have := List.all_eq_true.1 fragmentsClean_ok _ hm
  simp only [Bool.and_eq_true, Bool.not_eq_true', List.isEmpty_eq_false, ne_eq,
    List.contains_eq_any_beq, List.any_eq_false, beq_iff_eq, beq_eq_false_iff_ne] at this
  refine ⟨?_, ?_, ?_⟩
  · intro h0; simp [h0] at this
  · intro hm; exact this.1.2 _ hm rfl
  · exact this.2

theorem check_fragment_inj (caseTable : Char → Char) (r s : Rule) (hr : r ∈ checks caseTable)
    (hs : s ∈ checks caseTable) (h : r.fragment = s.fragment) : r = s := by
  have nd : ((checks caseTable).map (fun r => r.fragment)).Nodup := by
    rw [checks_fragments]; decide
  exact List.inj_on_of_nodup_map nd hr hs h

theorem mem_report (c : Config) (rs : List Rule) (a : String) :
    a ∈ report c rs ↔ ∃ r ∈ rs, r.violated c = true ∧ r.fragment = a := by
  simp [report, and_assoc]

theorem sectionErr_nil (label : String) : sectionErr label [] = [] := rfl

theorem sectionErr_cons (label a : String) (L : List String) :
    sectionErr label (a :: L) = [label ++ Join (a :: L) "; "] := by
  simp [sectionErr]

theorem mem_assemble (secs : List (String × List String)) (s : String)
    (h : s ∈ assemble secs) :
    ∃ p ∈ secs, ∃ a L, p.2 = a :: L ∧ s = p.1 ++ Join (a :: L) "; " := by
  induction secs with
  | nil => cases h
  | cons p rest ih =>
    rw [assemble, List.mem_append] at h
    rcases h with h | h
    · cases hp : p.2 with
      | nil => rw [hp, sectionErr_nil] at h; cases h
      | cons a L =>
        rw [hp, sectionErr_cons, List.mem_singleton] at h
        exact ⟨p, List.mem_cons_self _ _, a, L, hp, h⟩
    · obtain ⟨q, hq, r⟩ := ih h
      exact ⟨q, List.mem_cons_of_mem _ hq, r⟩

theorem assemble_mem (secs : List (String × List String)) (p : String × List String)
    (hp : p ∈ secs) (a : String) (ha : a ∈ p.2) :
    p.1 ++ Join p.2 "; " ∈ assemble secs := by
  induction secs with
  | nil => cases hp
  | cons q rest ih =>
    rw [assemble, List.mem_append]
    rcases List.mem_cons.1 hp with h | h
    · subst h
      left
      cases hq : p.2 with
      | nil => rw [hq] at ha; cases ha
      | cons b L => rw [sectionErr_cons]; exact List.mem_singleton.2 rfl
    · exact Or.inr (ih h)

theorem assemble_eq_nil (secs : List (String × List String)) :
    assemble secs = [] ↔ ∀ p ∈ secs, p.2 = [] := by
  induction secs with
  | nil => simp [assemble]
  | cons q rest ih =>
    rw [assemble, List.append_eq_nil, ih]
    cases hq : q.2 with
    | nil => simp [sectionErr_nil, hq]
    | cons b L => simp [sectionErr_cons, hq]

/-- A clean text found in the assembled message lies inside one labelled fragment. -/
theorem infix_assembled {f : List Char} (hf : Clean f) (pre : String)
    (secs : List (String × List String)) (hne : assemble secs ≠ [])
    (h : f <:+: (pre ++ Join (assemble secs) "; ").data) :
    ∃ p ∈ secs, ∃ a ∈ p.2, f <:+: pre.data ++ (p.1.data ++ a.data) := by
  rw [String.data_append] at h
  obtain ⟨s, hs, h1⟩ : ∃ s ∈ assemble secs, f <:+: pre.data ++ s.data := by
    cases hS : assemble secs with
    | nil => exact absurd hS hne
    | cons s1 S =>
      rw [hS] at h
      rcases infix_Join_segment hf S s1 pre.data h with h1 | ⟨s, hs, h1⟩
      · exact ⟨s1, List.mem_cons_self _ _, h1⟩
      · exact ⟨s, List.mem_cons_of_mem _ hs, h1.trans ⟨pre.data, [], by simp⟩⟩
  obtain ⟨p, hp, a, L, hpL, e⟩ := mem_assemble secs s hs
  subst e
  rw [String.data_append, ← List.append_assoc] at h1
  rcases infix_Join_segment hf L a _ h1 with h2 | ⟨b, hb, h2⟩
  · exact ⟨p, hp, a, by rw [hpL]; exact List.mem_cons_self _ _, by simpa using h2⟩
  · refine ⟨p, hp, b, by rw [hpL]; exact List.mem_cons_of_mem _ hb, ?_⟩
    exact h2.trans ⟨pre.data ++ p.1.data, [], by simp⟩

/-- Every fragment of a section occurs in the assembled message. -/
theorem assembled_infix (pre : String) (secs : List (String × List String))
    (p : String × List String) (hp : p ∈ secs) (a : String) (ha : a ∈ p.2) :
    a.data <:+: (pre ++ Join (assemble secs) "; ").data := by
  have h1 := mem_infix_Join p.2 "; " a ha
  have h2 := mem_infix_Join _ "; " _ (assemble_mem secs p hp a ha)
  rw [String.data_append] at h2 ⊢
  have h3 : a.data <:+: p.1.data ++ (Join p.2 "; ").data :=
    h1.trans ⟨p.1.data, [], by simp⟩
  exact (h3.trans h2).trans ⟨pre.data, [], by simp⟩

theorem semis_sections (secs : List (String × List String))
    (h : ∀ p ∈ secs, semis p.1 = 0 ∧ ∀ a ∈ p.2, semis a = 0) :
    ((assemble secs).map (fun s => semis s + 1)).sum = (secs.map (fun p => p.2.length)).sum := by
  induction secs with
  | nil => rfl
  | cons q rest ih =>
    rw [assemble, List.map_append, List.sum_append, List.map_cons, List.sum_cons,
      ih (fun p hp => h p (List.mem_cons_of_mem _ hp))]
    congr 1
    have hq := h q (List.mem_cons_self _ _)
    cases hL : q.2 with
    | nil => simp [sectionErr_nil]
    | cons b L =>
      rw [sectionErr_cons, List.map_singleton, List.sum_singleton, semis_append, hq.1,
        Nat.zero_add, semis_Join]
      have : ∀ M : List String, (∀ a ∈ M, semis a = 0) →
          (M.map (fun s => semis s + 1)).sum = M.length := by
        intro M hM
        induction M with
        | nil => rfl
        | cons x M ihM =>
          rw [List.map_cons, List.sum_cons, hM x (List.mem_cons_self _ _),
            ihM (fun a ha => hM a (List.mem_cons_of_mem _ ha)), List.length_cons]; omega
      exact this _ (by rw [← hL]; exact hq.2)

theorem semis_assembled (pre : String) (hpre : semis pre = 0)
    (secs : List (String × List String)) (hne : assemble secs ≠ [])
    (h : ∀ p ∈ secs, semis p.1 = 0 ∧ ∀ a ∈ p.2, semis a = 0) :
    semis (pre ++ Join (assemble secs) "; ") + 1 = (secs.map (fun p => p.2.length)).sum := by
  rw [semis_append, hpre, Nat.zero_add, ← semis_sections secs h]
  cases hS : assemble secs with
  | nil => exact absurd hS hne
  | cons s1 S => exact semis_Join s1 S

theorem validateConfig_errors_eq (caseTable : Char → Char) (c : Config) :
    validateConfig.errors caseTable c = assemble (configSections caseTable c) := by
  simp only [validateConfig.errors, validateBotConfig, validateDockerConfig,
    validateLoggingConfig, validateServerConfig, bot_errors_eq,
    docker_errors_eq, logging_errors_eq, server_errors_eq, configSections, assemble]
  cases report c botRules <;> cases report c dockerChecks <;>
    cases report c (loggingRules caseTable) <;> cases report c serverRules <;>
    simp [sectionErr]

theorem report_checks (caseTable : Char → Char) (c : Config) :
    report c (checks caseTable) = report c botRules ++ report c dockerChecks ++
      report c (loggingRules caseTable) ++ report c serverRules := by
  simp only [checks, report_append]

theorem sections_length (caseTable : Char → Char) (c : Config) :
    ((configSections caseTable c).map (fun p => p.2.length)).sum =
      (report c (checks caseTable)).length := by
  simp [configSections, report_checks, Nat.add_assoc]

theorem mem_sections (caseTable : Char → Char) (c : Config) (a : String) :
    (∃ p ∈ configSections caseTable c, a ∈ p.2) ↔ a ∈ report c (checks caseTable) := by
  simp [configSections, report_checks, or_assoc]

theorem sections_nil (caseTable : Char → Char) (c : Config) :
    assemble (configSections caseTable c) = [] ↔ report c (checks caseTable) = [] := by
  rw [assemble_eq_nil]
  simp [configSections, report_checks, and_assoc]

theorem semis_fragment (caseTable : Char → Char) (c : Config) (a : String)
    (h : a ∈ report c (checks caseTable)) : semis a = 0 := by
  obtain ⟨r, hr, -, e⟩ := (mem_report c _ a).1 h
  subst e
  have := (check_fragment_clean caseTable r hr).2.1
  exact List.count_eq_zero.2 this

theorem sections_semis (caseTable : Char → Char) (c : Config) :
    ∀ p ∈ configSections caseTable c, semis p.1 = 0 ∧ ∀ a ∈ p.2, semis a = 0 := by
  intro p hp
  refine ⟨?_, fun a ha => semis_fragment caseTable c a ((mem_sections caseTable c a).1 ⟨p, hp, ha⟩)⟩
  simp only [configSections, List.mem_cons, List.mem_singleton, List.not_mem_nil, or_false] at hp
  rcases hp with h | h | h | h <;> subst h <;> rfl

/-- Inside a labelled fragment of a section the only rule fragment is the fragment itself. -/
theorem sections_locate (caseTable : Char → Char) (c : Config) (r : Rule)
    (hr : r ∈ checks caseTable) (p : String × List String) (hp : p ∈ configSections caseTable c)
    (a : String) (ha : a ∈ p.2)
    (h : r.fragment.data <:+: "validation errors: ".data ++ (p.1.data ++ a.data)) :
    r.fragment = a := by
  have hf : r.fragment ∈ (checks id).map (fun r => r.fragment) := by
    rw [← checks_fragments caseTable]; exact List.mem_map_of_mem _ hr
  have key : ∀ q ∈ sectionTable, a ∈ q.2 → q.1 = p.1 → r.fragment = a := by
    intro q hq haq e
    have := List.all_eq_true.1 (List.all_eq_true.1 (List.all_eq_true.1 fragmentTable_ok q hq)
      a haq) _ hf
    rw [Bool.or_eq_true, Bool.not_eq_true', beq_iff_eq] at this
    rcases this with h1 | h1
    · rw [e, ← Bool.not_eq_true, containsFrom_iff] at h1
      exact absurd h h1
    · exact h1
  have sub : ∀ (R : List Rule), a ∈ report c R → a ∈ R.map (fun r => r.fragment) := by
    intro R h1
    obtain ⟨s, hs, -, e⟩ := (mem_report c R a).1 h1
    exact e ▸ List.mem_map_of_mem _ hs
  simp only [configSections, List.mem_cons, List.mem_singleton, List.not_mem_nil, or_false] at hp
  rcases hp with e | e | e | e <;> subst e
  · exact key ("bot config: ", _) (by simp [sectionTable]) (sub _ ha) rfl
  · exact key ("docker config: ", _) (by simp [sectionTable]) (sub _ ha) rfl
  · exact key ("logging config: ", (loggingRules id).map (fun r => r.fragment))
      (by simp [sectionTable]) (sub _ ha) rfl
  · exact key ("server config: ", _) (by simp [sectionTable]) (sub _ ha) rfl

theorem validateConfig_eq (caseTable : Char → Char) (c : Config) :
    validateConfig caseTable c =
      if assemble (configSections caseTable c) = [] then none
      else some ("validation errors: " ++ Join (assemble (configSections caseTable c)) "; ") := by
  rw [validateConfig, validateConfig_errors_eq]
  cases assemble (configSections caseTable c) <;> simp

/-- In the message of `validateConfig` a rule fragment occurs iff the rule is violated. -/
theorem message_contains_iff (caseTable : Char → Char) (c : Config)
    (hne : assemble (configSections caseTable c) ≠ []) (r : Rule) (hr : r ∈ checks caseTable) :
    Contains ("validation errors: " ++ Join (assemble (configSections caseTable c)) "; ")
      r.fragment = true ↔ r.violated c = true := by
  rw [Contains_iff]
  constructor
  · intro h
    obtain ⟨p, hp, a, ha, h1⟩ :=
      infix_assembled (check_fragment_clean caseTable r hr) _ _ hne h
    have e := sections_locate caseTable c r hr p hp a ha h1
    obtain ⟨s, hs, hv, e2⟩ := (mem_report c _ a).1 ((mem_sections caseTable c a).1 ⟨p, hp, ha⟩)
    have : r = s := check_fragment_inj caseTable r s hr hs (e.trans e2.symm)
    rw [this]; exact hv
  · intro hv
    have : r.fragment ∈ report c (checks caseTable) := (mem_report c _ _).2 ⟨r, hr, hv, rfl⟩
    obtain ⟨p, hp, ha⟩ := (mem_sections caseTable c _).2 this
    exact assembled_infix _ _ p hp _ ha

/-- The message of `validateConfig` holds exactly the fragments of the checks that fire. -/
theorem validateConfig_checks (caseTable : Char → Char) (c : Config) :
    (validateConfig caseTable c = none ∧ report c (checks caseTable) = []) ∨
    (∃ msg, validateConfig caseTable c = some msg ∧
      (∀ r ∈ checks caseTable, Contains msg r.fragment = true ↔ r.violated c = true) ∧
      semis msg + 1 = (report c (checks caseTable)).length ∧
      report c (checks caseTable) ≠ []) := by
  rw [validateConfig_eq]
  by_cases hne : assemble (configSections caseTable c) = []
  · left; exact ⟨if_pos hne, (sections_nil caseTable c).1 hne⟩
  · right
    refine ⟨_, if_neg hne, message_contains_iff caseTable c hne, ?_,
      fun h => hne ((sections_nil caseTable c).2 h)⟩
    rw [semis_assembled _ (by decide) _ hne (sections_semis caseTable c), sections_length]

theorem opt_eq_nil (b : Bool) (f : String) : opt b f = [] ↔ b = false := by
  cases b <;> simp [opt]

theorem mem_opt (b : Bool) (f a : String) : a ∈ opt b f ↔ b = true ∧ a = f := by
  cases b <;> simp [opt]

theorem validate_none_iff (errs : List String) :
    (if errs.length > 0 then some (Join errs "; ") else none) = none ↔ errs = [] := by
  cases errs <;> simp

theorem bot_errors_opt (b : BotConfig) : validateBotConfig.errors b =
    opt (decide (b.Token = "")) "bot token is required (set DCE_BOT_TOKEN environment variable)" ++
    opt (decide (b.Token ≠ "" ∧ (!isValidBotToken b.Token) = true))
      "bot token appears to be invalid format" ++
    opt (decide (b.Prefix = "")) "command prefix cannot be empty" ++
    opt (decide (b.MaxConcurrentCommands < 1)) "max concurrent commands must be at least 1" ++
    opt (decide (b.MaxConcurrentCommands > 100))
      "max concurrent commands should not exceed 100" := by
  simp only [validateBotConfig.errors, ite_append_opt]
  simp only [List.nil_append, List.append_assoc]

theorem Float64_le_of_lt (v : Float64) (h : Float64.lt (.finite 0) v = true) :
    Float64.le v (.finite 0) = false := by
  cases v with
  | nan => rfl
  | negInf => simp [Float64.lt] at h
  | posInf => rfl
  | finite q =>
    simp only [Float64.lt, Float64.le, decide_eq_true_eq, decide_eq_false_iff_not, not_le] at h ⊢
    exact h

theorem Float64_gt_of_le (v : Float64) (h : Float64.le v (.finite 8) = true) :
    Float64.gt v (.finite 8) = false := by
  cases v with
  | nan => rfl
  | negInf => rfl
  | posInf => simp [Float64.le] at h
  | finite q =>
    simp only [Float64.gt, Float64.lt, Float64.le, decide_eq_true_eq, decide_eq_false_iff_not,
      not_lt] at h ⊢
    exact h

theorem docker_errors_opt (d : DockerConfig) : validateDockerConfig.errors d =
    opt (decide (d.Host = "")) "docker host cannot be empty" ++
    opt (decide (d.DefaultTimeout < 1)) "default timeout must be at least 1 second" ++
    opt (decide (d.DefaultTimeout > MaxDefaultTimeoutSeconds))
      "default timeout should not exceed 1 hour" ++
    opt (decide (d.MaxRuntime < 1)) "max runtime must be at least 1 second" ++
    opt (decide (d.MaxRuntime > MaxRuntimeSeconds)) "max runtime should not exceed 2 hours" ++
    opt (decide (d.MemoryLimit < 16)) "memory limit must be at least 16 MB" ++
    opt (decide (d.MemoryLimit > 4096)) "memory limit should not exceed 4096 MB" ++
    opt (Float64.le d.CPULimit (.finite 0)) "CPU limit must be greater than 0" ++
    opt (Float64.gt d.CPULimit (.finite 8)) "CPU limit should not exceed 8.0" ++
    opt (decide (d.NetworkName = "")) "network name cannot be empty" := by
  simp only [validateDockerConfig.errors, ite_append_opt]
  simp only [List.nil_append, List.append_assoc, Bool.decide_eq_true]

theorem logging_errors_opt (caseTable : Char → Char) (l : LoggingConfig) :
    validateLoggingConfig.errors caseTable l =
    opt (!(mapIndex validLevels (ToLower caseTable l.Level)))
      "log level must be one of: debug, info, warn, error, fatal, panic" ++
    opt (!(mapIndex validFormats (ToLower caseTable l.Format)))
      "log format must be either 'json' or 'text'" := by
  simp only [validateLoggingConfig.errors, ite_append_opt]
  simp only [List.nil_append, Bool.decide_eq_true]

theorem ToLower_levelNames (caseTable : Char → Char) :
    ∀ name ∈ levelNames, ToLower caseTable name = name := by
  intro name h
  simp only [levelNames, List.mem_cons, List.mem_singleton, List.not_mem_nil, or_false] at h
  rcases h with h | h | h | h | h | h <;> subst h <;> rfl

theorem ToLower_formatNames (caseTable : Char → Char) :
    ∀ name ∈ formatNames, ToLower caseTable name = name := by
  intro name h
  simp only [formatNames, List.mem_cons, List.mem_singleton, List.not_mem_nil, or_false] at h
  rcases h with h | h <;> subst h <;> rfl

theorem server_errors_opt (s : ServerConfig) : validateServerConfig.errors s =
    opt (decide (s.Port < 1 ∨ s.Port > 65535)) "server port must be between 1 and 65535" ++
    opt (decide (s.ReadTimeout < 1)) "read timeout must be at least 1 second" ++
    opt (decide (s.ReadTimeout > MaxReadWriteTimeout))
      "read timeout should not exceed 300 seconds" ++
    opt (decide (s.WriteTimeout < 1)) "write timeout must be at least 1 second" ++
    opt (decide (s.WriteTimeout > MaxReadWriteTimeout))
      "write timeout should not exceed 300 seconds" := by
  simp only [validateServerConfig.errors, ite_append_opt]
  simp only [List.nil_append, List.append_assoc]

theorem Float64_le_zero (v : Float64) (h : v ≠ .nan) :
    Float64.le v (.finite 0) = !(Float64.lt (.finite 0) v) := by
  cases v with
  | nan => exact absurd rfl h
  | negInf => rfl
  | posInf => rfl
  | finite q =>
    simp only [Float64.lt, Float64.le]
    by_cases hq : q ≤ 0
    · simp [hq, not_lt.2 hq]
    · simp [hq, not_le.1 hq]

theorem Float64_gt_eight (v : Float64) (h : v ≠ .nan) :
    Float64.gt v (.finite 8) = !(Float64.le v (.finite 8)) := by
  cases v with
  | nan => exact absurd rfl h
  | negInf => rfl
  | posInf => rfl
  | finite q =>
    simp only [Float64.gt, Float64.lt, Float64.le]
    by_cases hq : q ≤ 8
    · simp [hq, not_lt.2 hq]
    · simp [hq, not_le.1 hq]

theorem verdict_rules (caseTable : Char → Char) (c : Config) (h : c.Docker.CPULimit ≠ .nan) :
    (rules caseTable).map (verdict c) = (checks caseTable).map (verdict c) := by
  simp only [rules, checks, dockerRules, dockerChecks, List.map_append, List.map_cons, verdict,
    Float64_le_zero _ h, Float64_gt_eight _ h]

theorem report_verdict (c : Config) (rs : List Rule) :
    report c rs = (((rs.map (verdict c)).filter (fun v => v.1)).map (fun v => v.2)) := by
  induction rs with
  | nil => rfl
  | cons r rs ih =>
    rw [report_cons, ih, List.map_cons, List.filter_cons]
    cases hv : r.violated c <;> simp [opt, verdict, hv]

theorem report_rules (caseTable : Char → Char) (c : Config) (h : c.Docker.CPULimit ≠ .nan) :
    report c (rules caseTable) = report c (checks caseTable) := by
  rw [report_verdict, report_verdict, verdict_rules caseTable c h]

theorem rule_as_check (caseTable : Char → Char) (c : Config) (h : c.Docker.CPULimit ≠ .nan)
    (r : Rule) (hr : r ∈ rules caseTable) :
    ∃ k ∈ checks caseTable, k.violated c = r.violated c ∧ k.fragment = r.fragment := by
  have : verdict c r ∈ (checks caseTable).map (verdict c) := by
    rw [← verdict_rules caseTable c h]; exact List.mem_map_of_mem _ hr
  obtain ⟨k, hk, e⟩ := List.mem_map.1 this
  exact ⟨k, hk, congrArg Prod.fst e, congrArg Prod.snd e⟩

/-! ## The claims -/

/-- C1: the message of `validateConfig` is meant to hold the fragment of every violated field
rule and of no satisfied one, so that `N` violated rules give `N` fragments. The code departs
from this at one value: for `nanCpuConfig`, whose `cpuLimit` is not a number, both halves of
`0 < v ≤ 8.0` fail and yet `validateConfig` returns no error at all. For every configuration
whose `cpuLimit` is a number the property holds: a rule fragment occurs in the message iff the
rule is violated, the fragments found in the message are those of the violated rules in rule
order, and their number is the number of separators plus one. The all-zero configuration gives
14 fragments: 3 bot, 6 docker, 2 logging, 3 server. -/
theorem validateConfig_reports_violated_rules (caseTable : Char → Char) :
    (validateConfig caseTable nanCpuConfig = none ∧
      report nanCpuConfig (rules caseTable) =
        ["CPU limit must be greater than 0", "CPU limit should not exceed 8.0"]) ∧
    (∀ c : Config, c.Docker.CPULimit ≠ .nan →
      (validateConfig caseTable c = none ∧ report c (rules caseTable) = []) ∨
      (∃ msg, validateConfig caseTable c = some msg ∧
        (∀ r ∈ rules caseTable, Contains msg r.fragment = true ↔ r.violated c = true) ∧
        fragmentsIn caseTable msg = report c (rules caseTable) ∧
        (fragmentsIn caseTable msg).length = semis msg + 1 ∧
        report c (rules caseTable) ≠ [])) ∧
    (∃ msg, validateConfig caseTable zeroConfig = some msg ∧
      (fragmentsIn caseTable msg).length = 14 ∧
      (report zeroConfig botRules).length = 3 ∧ (report zeroConfig dockerRules).length = 6 ∧
      (report zeroConfig (loggingRules caseTable)).length = 2 ∧
      (report zeroConfig serverRules).length = 3) := by
  have main : ∀ c : Config, c.Docker.CPULimit ≠ .nan →
      (validateConfig caseTable c = none ∧ report c (rules caseTable) = []) ∨
      (∃ msg, validateConfig caseTable c = some msg ∧
        (∀ r ∈ rules caseTable, Contains msg r.fragment = true ↔ r.violated c = true) ∧
        fragmentsIn caseTable msg = report c (rules caseTable) ∧
        (fragmentsIn caseTable msg).length = semis msg + 1 ∧
        report c (rules caseTable) ≠ []) := by
    intro c hnan
    rw [report_rules caseTable c hnan]
    rcases validateConfig_checks caseTable c with h | ⟨msg, hm, h1, h2, h3⟩
    · exact Or.inl h
    · right
      have h4 : ∀ r ∈ rules caseTable, Contains msg r.fragment = true ↔ r.violated c = true := by
        intro r hr
        obtain ⟨k, hk, e1, e2⟩ := rule_as_check caseTable c hnan r hr
        rw [← e1, ← e2]; exact h1 k hk
      have h5 : fragmentsIn caseTable msg = report c (checks caseTable) := by
        rw [← report_rules caseTable c hnan]
        unfold fragmentsIn report
        congr 1
        apply List.filter_congr
        intro r hr
        have := h4 r hr
        cases hv : r.violated c <;> simp_all
      exact ⟨msg, hm, h4, h5, by rw [h5, h2], h3⟩
  have z : report zeroConfig (rules caseTable) =
      report zeroConfig botRules ++ report zeroConfig dockerRules ++
        report zeroConfig (loggingRules caseTable) ++ report zeroConfig serverRules := by
    simp only [rules, report_append]
  have zl : (report zeroConfig (loggingRules caseTable)).length = 2 := rfl
  have zb : (report zeroConfig botRules).length = 3 := by decide
  have zd : (report zeroConfig dockerRules).length = 6 := by decide
  have zs : (report zeroConfig serverRules).length = 3 := by decide
  have z14 : (report zeroConfig (rules caseTable)).length = 14 := by
    rw [z]; simp only [List.length_append, zl, zb, zd, zs]
  refine ⟨⟨rfl, rfl⟩, main, ?_⟩
  rcases main zeroConfig (by decide) with h | ⟨msg, hm, -, h2, -, -⟩
  · rw [h.2] at z14; cases z14
  · exact ⟨msg, hm, by rw [h2]; exact z14, zb, zd, zl, zs⟩

/-- C2: `validateConfig` returns no error iff the four section validators all return no
error; otherwise its message is `"validation errors: "` followed by the messages of the
failing sections, each behind its label, in the order bot, docker, logging, server, joined by
`"; "`. Each entry depends on its own section only. -/
theorem validateConfig_joins_section_reports (caseTable : Char → Char) (c : Config) :
    (validateConfig caseTable c = none ↔
      validateBotConfig c.Bot = none ∧ validateDockerConfig c.Docker = none ∧
      validateLoggingConfig caseTable c.Logging = none ∧ validateServerConfig c.Server = none) ∧
    validateConfig caseTable c =
      (if sectionReports caseTable c = [] then none
       else some ("validation errors: " ++ Join (sectionReports caseTable c) "; ")) := by
  simp only [validateConfig, validateConfig.errors, sectionReports]
  cases validateBotConfig c.Bot <;> cases validateDockerConfig c.Docker <;>
    cases validateLoggingConfig caseTable c.Logging <;> cases validateServerConfig c.Server <;>
    simp

/-- C3, as stated, fails: the token `testééé` contains `test`, has 7 characters, and is
accepted, because its UTF-8 encoding has 10 bytes. -/
theorem isValidBotToken_test_token_char_count_counterexample :
    "testééé" ≠ "" ∧ Contains "testééé" "test" = true ∧
    ¬ (isValidBotToken "testééé" = true ↔ 10 ≤ "testééé".length) := by
  decide

/-- C3, amended: a token that contains `test` (so also every token that contains `testing`)
is accepted iff its length in bytes is at least 10, whatever its characters; for a token of
ASCII characters that is its number of characters. -/
theorem isValidBotToken_test_token_iff_byte_length (token : String)
    (h : Contains token "test" = true ∨ Contains token "testing" = true) :
    (isValidBotToken token = true ↔ 10 ≤ len token) ∧
    ((∀ c ∈ token.data, c.toNat ≤ 127) → (isValidBotToken token = true ↔ 10 ≤ token.length)) := by
  have h1 : Contains token "test" = true := h.elim id (Contains_testing token)
  have h2 : isValidBotToken token = true ↔ 10 ≤ len token := by
    rw [isValidBotToken_test token h1]; simp [MinTokenLength]
  refine ⟨h2, fun ha => ?_⟩
  rw [h2, len_eq, utf8Len_ascii _ ha]; rfl

/-- C3, amended, at the tokens `test-token` (10 bytes, accepted) and `test12345` (9 bytes,
rejected). -/
theorem isValidBotToken_test_token_iff_byte_length_witness :
    Contains "test-token" "test" = true ∧ isValidBotToken "test-token" = true ∧
    Contains "test12345" "test" = true ∧ ¬ isValidBotToken "test12345" = true :=
  ⟨by decide,
   (isValidBotToken_test_token_iff_byte_length "test-token" (Or.inl (by decide))).1.2 (by decide),
   by decide,
   fun hv => absurd
     ((isValidBotToken_test_token_iff_byte_length "test12345" (Or.inl (by decide))).1.1 hv)
     (by decide)⟩

/-- C4: a token that does not contain `test` is accepted iff it has at least 50 characters
and each of them is in `[A-Za-z0-9._-]` (the length may be counted in characters or, as the
code does, in bytes: on such tokens the two agree); so every such token shorter than 50 is
rejected, and one character outside the set rejects a token of any length. -/
theorem isValidBotToken_real_token_iff (token : String) (h : Contains token "test" = false) :
    (isValidBotToken token = true ↔ 50 ≤ token.length ∧ ∀ c ∈ token.data, c ∈ tokenAlphabet) ∧
    (isValidBotToken token = true ↔ 50 ≤ len token ∧ ∀ c ∈ token.data, c ∈ tokenAlphabet) ∧
    (token.length < 50 → isValidBotToken token = false) ∧
    (∀ c ∈ token.data, c ∉ tokenAlphabet → isValidBotToken token = false) := by
  have key : isValidBotToken token = true ↔
      50 ≤ token.length ∧ ∀ c ∈ token.data, c ∈ tokenAlphabet := by
    rw [isValidBotToken_real token h]
    simp only [← tokenCharOK_iff_mem]
    constructor
    · intro hv
      by_cases hl : len token < MinRealTokenLength
      · simp [hl] at hv
      · rw [if_neg hl, tokenCharLoop_iff] at hv
        refine ⟨?_, hv⟩
        have := utf8Len_ascii token.data (fun c hc => by
          have := (tokenCharOK_iff c).1 (hv c hc); omega)
        rw [len_eq, this] at hl
        simp only [MinRealTokenLength] at hl
        show 50 ≤ token.data.length
        omega
    · rintro ⟨hl, hc⟩
      have := length_le_utf8Len token.data
      have hl2 : ¬ len token < MinRealTokenLength := by
        rw [len_eq]; simp only [MinRealTokenLength]
        have : 50 ≤ token.data.length := hl
        omega
      rw [if_neg hl2, tokenCharLoop_iff]; exact hc
  refine ⟨key, ?_, fun hl => ?_, fun c hc hn => ?_⟩
  · rw [key]
    constructor
    · rintro ⟨hl, hc⟩
      have := length_le_utf8Len token.data
      have hl1 : 50 ≤ token.data.length := hl
      exact ⟨by rw [len_eq]; omega, hc⟩
    · rintro ⟨hl, hc⟩
      have := utf8Len_ascii token.data (fun c hc1 => by
        have := (tokenCharOK_iff c).1 ((tokenCharOK_iff_mem c).2 (hc c hc1)); omega)
      rw [len_eq, this] at hl
      exact ⟨hl, hc⟩
  · cases hv : isValidBotToken token
    · rfl
    · have := (key.1 hv).1; omega
  · cases hv : isValidBotToken token
    · rfl
    · exact absurd ((key.1 hv).2 c hc) hn

/-- C4 at a 59-character token of the allowed set (accepted), at the 5-character token
`abcde` (rejected) and at a 59-character token with one `!` (rejected). -/
theorem isValidBotToken_real_token_iff_witness :
    isValidBotToken "MTA5.Nzg2NTQzMjEwOTg3NjU0MzIx.GhIjKl.aBcDeFgHiJkLmNoPqRsTuVwXyZ_0-1" = true ∧
    isValidBotToken "abcde" = false ∧
    isValidBotToken "MTA5.Nzg2NTQzMjEwOTg3NjU0MzIx.GhIjKl.aBcDeFgHiJkLmNoPqRsTuVwXyZ_0-!" = false :=
  ⟨(isValidBotToken_real_token_iff
      "MTA5.Nzg2NTQzMjEwOTg3NjU0MzIx.GhIjKl.aBcDeFgHiJkLmNoPqRsTuVwXyZ_0-1" (by decide)).1.2
      ⟨by decide, by decide⟩,
   (isValidBotToken_real_token_iff "abcde" (by decide)).2.2.1 (by decide),
   (isValidBotToken_real_token_iff
      "MTA5.Nzg2NTQzMjEwOTg3NjU0MzIx.GhIjKl.aBcDeFgHiJkLmNoPqRsTuVwXyZ_0-!" (by decide)).2.2.2
      '!' (by decide) (by decide)⟩

/-- C5, as stated, fails: the token `test1` has length 5, contains `test`, and is
rejected. -/
theorem isValidBotToken_five_char_test_token_counterexample :
    "test1".length = 5 ∧ Contains "test1" "test" = true ∧ isValidBotToken "test1" = false := by
  decide

/-- C5, amended: every token of length 5 that contains `test` is rejected, the short-token
branch asking for a length of at least `MinTokenLength = 10`. -/
theorem isValidBotToken_rejects_five_char_test_token (token : String)
    (h5 : token.length = 5) (h : Contains token "test" = true) :
    isValidBotToken token = false := by
  rw [isValidBotToken_test token h]
  rw [Contains_iff] at h
  obtain ⟨l⟩ := token
  have hl : l.length = 5 := h5
  simp only [len_eq, MinTokenLength, ge_iff_le, decide_eq_false_iff_not, not_le]
  obtain ⟨s, t, e⟩ := h
  have e2 : l = s ++ "test".data ++ t := e.symm
  have hlen : s.length + t.length = 1 := by
    have := congrArg List.length e2
    simp only [List.length_append] at this
    have h4 : (['t', 'e', 's', 't'] : List Char).length = 4 := rfl
    omega
  rw [e2]
  simp only [String.utf8Len_append]
  have h4 : String.utf8Len ['t', 'e', 's', 't'] = 4 := by decide
  have b1 : ∀ u : List Char, u.length ≤ 1 → String.utf8Len u ≤ 4 := by
    intro u hu
    match u, hu with
    | [], _ => simp
    | [c], _ => simpa using utf8Size_le4 c
  have b0 : ∀ u : List Char, u.length = 0 → String.utf8Len u = 0 := by
    intro u hu; simp [List.length_eq_zero.1 hu]
  rcases Nat.eq_zero_or_pos s.length with hs0 | hs0
  · have := b0 s hs0; have := b1 t (by omega); omega
  · have := b0 t (by omega); have := b1 s (by omega); omega

/-- C5, amended, at the tokens `atest` and `testé`. -/
theorem isValidBotToken_rejects_five_char_test_token_witness :
    "atest".length = 5 ∧ Contains "atest" "test" = true ∧ isValidBotToken "atest" = false ∧
    isValidBotToken "testé" = false :=
  ⟨by decide, by decide,
   isValidBotToken_rejects_five_char_test_token "atest" (by decide) (by decide),
   isValidBotToken_rejects_five_char_test_token "testé" (by decide) (by decide)⟩

/-- C6: `validateBotConfig` returns no error iff the token is non-empty and accepted by
`isValidBotToken`, the prefix is non-empty and `1 ≤ maxConcurrentCommands ≤ 100`; the guild id
plays no part. An empty token yields the fragment `bot token is required (set DCE_BOT_TOKEN
environment variable)`, a non-empty token that `isValidBotToken` rejects yields
`bot token appears to be invalid format`. -/
theorem validateBotConfig_none_iff (b : BotConfig) :
    (validateBotConfig b = none ↔
      b.Token ≠ "" ∧ isValidBotToken b.Token = true ∧ b.Prefix ≠ "" ∧
      1 ≤ b.MaxConcurrentCommands ∧ b.MaxConcurrentCommands ≤ 100) ∧
    (∀ g : String, validateBotConfig { b with GuildID := g } = validateBotConfig b) ∧
    (b.Token = "" → ∃ msg, validateBotConfig b = some msg ∧
      Contains msg "bot token is required (set DCE_BOT_TOKEN environment variable)" = true) ∧
    (b.Token ≠ "" → isValidBotToken b.Token = false → ∃ msg, validateBotConfig b = some msg ∧
      Contains msg "bot token appears to be invalid format" = true) := by
  have found : ∀ f : String, f ∈ validateBotConfig.errors b →
      ∃ msg, validateBotConfig b = some msg ∧ Contains msg f = true := by
    intro f hf
    refine ⟨Join (validateBotConfig.errors b) "; ", ?_, ?_⟩
    · rw [validateBotConfig]
      cases he : validateBotConfig.errors b with
      | nil => rw [he] at hf; cases hf
      | cons a L => simp
    · rw [Contains_iff]; exact mem_infix_Join _ _ _ hf
  refine ⟨?_, fun g => rfl, fun h => found _ ?_, fun h1 h2 => found _ ?_⟩
  · rw [validateBotConfig, validate_none_iff, bot_errors_opt]
    simp only [List.append_eq_nil, opt_eq_nil, decide_eq_false_iff_not]
    constructor
    · rintro ⟨⟨⟨⟨h1, h2⟩, h3⟩, h4⟩, h5⟩
      refine ⟨h1, ?_, h3, by omega, by omega⟩
      cases hv : isValidBotToken b.Token
      · exact absurd ⟨h1, by simp [hv]⟩ h2
      · rfl
    · rintro ⟨h1, h2, h3, h4, h5⟩
      refine ⟨⟨⟨⟨h1, ?_⟩, h3⟩, by omega⟩, by omega⟩
      simp [h2]
  · rw [bot_errors_opt]; simp [mem_opt, h]
  · rw [bot_errors_opt]; simp [mem_opt, h1, h2]

/-- C7: on a Bot section with an accepted token and a non-empty prefix,
`maxConcurrentCommands < 1` is rejected with `must be at least 1` in the message,
`maxConcurrentCommands > 100` with `should not exceed 100`, and every value from 1 to 100 is
accepted. -/
theorem validateBotConfig_maxConcurrent_bounds (b : BotConfig) (hTok : b.Token ≠ "")
    (hValid : isValidBotToken b.Token = true) (hPre : b.Prefix ≠ "") :
    (b.MaxConcurrentCommands < 1 →
      validateBotConfig b = some "max concurrent commands must be at least 1" ∧
      Contains "max concurrent commands must be at least 1" "must be at least 1" = true) ∧
    (b.MaxConcurrentCommands > 100 →
      validateBotConfig b = some "max concurrent commands should not exceed 100" ∧
      Contains "max concurrent commands should not exceed 100" "should not exceed 100" = true) ∧
    (1 ≤ b.MaxConcurrentCommands → b.MaxConcurrentCommands ≤ 100 → validateBotConfig b = none) := by
  have e : validateBotConfig.errors b =
      opt (decide (b.MaxConcurrentCommands < 1)) "max concurrent commands must be at least 1" ++
      opt (decide (b.MaxConcurrentCommands > 100))
        "max concurrent commands should not exceed 100" := by
    rw [bot_errors_opt]; simp [opt, hTok, hValid, hPre]
  refine ⟨fun h => ⟨?_, by decide⟩, fun h => ⟨?_, by decide⟩, fun h1 h2 => ?_⟩
  · have h2 : ¬ b.MaxConcurrentCommands > 100 := by omega
    simp [validateBotConfig, e, opt, h, h2, Join]
  · have h2 : ¬ b.MaxConcurrentCommands < 1 := by omega
    simp [validateBotConfig, e, opt, h, h2, Join]
  · have h3 : ¬ b.MaxConcurrentCommands > 100 := by omega
    have h4 : ¬ b.MaxConcurrentCommands < 1 := by omega
    simp [validateBotConfig, e, opt, h3, h4]

/-- C7 at the Bot section of the test suite with 0, 101, 1 and 100 commands. -/
theorem validateBotConfig_maxConcurrent_bounds_witness :
    validateBotConfig ⟨"valid.test.token.for.unit.testing.purposes.only.not.real", "!", "", 0⟩ =
      some "max concurrent commands must be at least 1" ∧
    validateBotConfig ⟨"valid.test.token.for.unit.testing.purposes.only.not.real", "!", "", 101⟩ =
      some "max concurrent commands should not exceed 100" ∧
    validateBotConfig ⟨"valid.test.token.for.unit.testing.purposes.only.not.real", "!", "", 1⟩ =
      none ∧
    validateBotConfig ⟨"valid.test.token.for.unit.testing.purposes.only.not.real", "!", "", 100⟩ =
      none :=
  ⟨((validateBotConfig_maxConcurrent_bounds ⟨_, "!", "", 0⟩
      (by decide) (by decide) (by decide)).1 (by decide)).1,
   ((validateBotConfig_maxConcurrent_bounds ⟨_, "!", "", 101⟩
      (by decide) (by decide) (by decide)).2.1 (by decide)).1,
   (validateBotConfig_maxConcurrent_bounds ⟨_, "!", "", 1⟩
      (by decide) (by decide) (by decide)).2.2 (by decide) (by decide),
   (validateBotConfig_maxConcurrent_bounds ⟨_, "!", "", 100⟩
      (by decide) (by decide) (by decide)).2.2 (by decide) (by decide)⟩

/-- C8: on a Docker section whose `cpuLimit` satisfies `0 < v ≤ 8.0`, `validateDockerConfig`
returns no error iff host and network name are non-empty, `1 ≤ defaultTimeout ≤ 3600`,
`1 ≤ maxRuntime ≤ 7200` and `16 ≤ memoryLimit ≤ 4096`, all bounds included. -/
theorem validateDockerConfig_none_iff (d : DockerConfig)
    (hlo : Float64.lt (.finite 0) d.CPULimit = true)
    (hhi : Float64.le d.CPULimit (.finite 8) = true) :
    validateDockerConfig d = none ↔
      d.Host ≠ "" ∧ d.NetworkName ≠ "" ∧
      (1 ≤ d.DefaultTimeout ∧ d.DefaultTimeout ≤ 3600) ∧
      (1 ≤ d.MaxRuntime ∧ d.MaxRuntime ≤ 7200) ∧
      (16 ≤ d.MemoryLimit ∧ d.MemoryLimit ≤ 4096) := by
  rw [validateDockerConfig, validate_none_iff, docker_errors_opt, Float64_le_of_lt _ hlo,
    Float64_gt_of_le _ hhi]
  simp only [List.append_eq_nil, opt_eq_nil, decide_eq_false_iff_not, MaxDefaultTimeoutSeconds,
    MaxRuntimeSeconds]
  constructor
  · rintro ⟨⟨⟨⟨⟨⟨⟨⟨⟨h1, h2⟩, h3⟩, h4⟩, h5⟩, h6⟩, h7⟩, -⟩, -⟩, h8⟩
    exact ⟨h1, h8, ⟨by omega, by omega⟩, ⟨by omega, by omega⟩, ⟨by omega, by omega⟩⟩
  · rintro ⟨h1, h8, ⟨h2, h3⟩, ⟨h4, h5⟩, ⟨h6, h7⟩⟩
    exact ⟨⟨⟨⟨⟨⟨⟨⟨⟨h1, by omega⟩, by omega⟩, by omega⟩, by omega⟩, by omega⟩, by omega⟩, trivial⟩,
      trivial⟩, h8⟩

/-- C8 at the bounds, on the Docker section of the defaults with `cpuLimit = 8.0`: 3600, 7200,
16 and 4096 are accepted, 3601, 7201, 15 and 4097 are rejected. -/
theorem validateDockerConfig_none_iff_witness :
    validateDockerConfig ⟨"unix:///var/run/docker.sock", "discord-executor", .finite 8,
      3600, 7200, 16⟩ = none ∧
    validateDockerConfig ⟨"unix:///var/run/docker.sock", "discord-executor", .finite 8,
      3600, 7200, 4096⟩ = none ∧
    validateDockerConfig ⟨"unix:///var/run/docker.sock", "discord-executor", .finite 8,
      3601, 300, 128⟩ ≠ none ∧
    validateDockerConfig ⟨"unix:///var/run/docker.sock", "discord-executor", .finite 8,
      30, 7201, 128⟩ ≠ none ∧
    validateDockerConfig ⟨"unix:///var/run/docker.sock", "discord-executor", .finite 8,
      30, 300, 15⟩ ≠ none ∧
    validateDockerConfig ⟨"unix:///var/run/docker.sock", "discord-executor", .finite 8,
      30, 300, 4097⟩ ≠ none :=
  ⟨(validateDockerConfig_none_iff ⟨_, _, .finite 8, 3600, 7200, 16⟩ (by decide) (by decide)).2
      (by decide),
   (validateDockerConfig_none_iff ⟨_, _, .finite 8, 3600, 7200, 4096⟩ (by decide) (by decide)).2
      (by decide),
   fun h => absurd
      ((validateDockerConfig_none_iff ⟨_, _, .finite 8, 3601, 300, 128⟩ (by decide) (by decide)).1
        h) (by decide),
   fun h => absurd
      ((validateDockerConfig_none_iff ⟨_, _, .finite 8, 30, 7201, 128⟩ (by decide) (by decide)).1
        h) (by decide),
   fun h => absurd
      ((validateDockerConfig_none_iff ⟨_, _, .finite 8, 30, 300, 15⟩ (by decide) (by decide)).1
        h) (by decide),
   fun h => absurd
      ((validateDockerConfig_none_iff ⟨_, _, .finite 8, 30, 300, 4097⟩ (by decide) (by decide)).1
        h) (by decide)⟩

/-- C9: `validateLoggingConfig` returns no error iff the level, compared case-insensitively,
is one of debug, info, warn, error, fatal, panic and the format, compared case-insensitively,
is one of json, text. `INFO` with `Json` is accepted, an empty level or an empty format is
rejected, and the output file and the caller flag play no part. -/
theorem validateLoggingConfig_none_iff (caseTable : Char → Char) (l : LoggingConfig) :
    (validateLoggingConfig caseTable l = none ↔
      (∃ name ∈ levelNames, eqIgnoreCase caseTable l.Level name) ∧
      (∃ name ∈ formatNames, eqIgnoreCase caseTable l.Format name)) ∧
    validateLoggingConfig caseTable ⟨"INFO", "Json", l.OutputFile, l.ReportCaller⟩ = none ∧
    validateLoggingConfig caseTable { l with Level := "" } ≠ none ∧
    validateLoggingConfig caseTable { l with Format := "" } ≠ none ∧
    (∀ (o : String) (r : Bool),
      validateLoggingConfig caseTable { l with OutputFile := o, ReportCaller := r } =
        validateLoggingConfig caseTable l) := by
  have key : ∀ m : LoggingConfig, validateLoggingConfig caseTable m = none ↔
      (∃ name ∈ levelNames, eqIgnoreCase caseTable m.Level name) ∧
      (∃ name ∈ formatNames, eqIgnoreCase caseTable m.Format name) := by
    intro m
    rw [validateLoggingConfig, validate_none_iff, logging_errors_opt]
    simp only [List.append_eq_nil, opt_eq_nil, Bool.not_eq_false', mapIndex_validLevels,
      mapIndex_validFormats, decide_eq_true_eq, eqIgnoreCase]
    constructor
    · rintro ⟨h1, h2⟩
      exact ⟨⟨_, h1, (ToLower_levelNames caseTable _ h1).symm⟩,
        ⟨_, h2, (ToLower_formatNames caseTable _ h2).symm⟩⟩
    · rintro ⟨⟨n, hn, e⟩, ⟨f, hf, e2⟩⟩
      rw [ToLower_levelNames caseTable n hn] at e
      rw [ToLower_formatNames caseTable f hf] at e2
      exact ⟨e ▸ hn, e2 ▸ hf⟩
  refine ⟨key l, ?_, ?_, ?_, fun o r => rfl⟩
  · rw [key]
    exact ⟨⟨"info", by decide, rfl⟩, ⟨"json", by decide, rfl⟩⟩
  · rw [Ne, key]
    rintro ⟨⟨n, hn, e⟩, -⟩
    rw [eqIgnoreCase, ToLower_levelNames caseTable n hn] at e
    have e0 : n = "" := e.symm
    subst e0
    revert hn; decide
  · rw [Ne, key]
    rintro ⟨-, ⟨n, hn, e⟩⟩
    rw [eqIgnoreCase, ToLower_formatNames caseTable n hn] at e
    have e0 : n = "" := e.symm
    subst e0
    revert hn; decide

/-- C10: `validateServerConfig` returns no error iff `1 ≤ port ≤ 65535`,
`1 ≤ readTimeout ≤ 300` and `1 ≤ writeTimeout ≤ 300`, all bounds included; the host may be any
string, the empty one too. -/
theorem validateServerConfig_none_iff (s : ServerConfig) :
    (validateServerConfig s = none ↔
      (1 ≤ s.Port ∧ s.Port ≤ 65535) ∧ (1 ≤ s.ReadTimeout ∧ s.ReadTimeout ≤ 300) ∧
      (1 ≤ s.WriteTimeout ∧ s.WriteTimeout ≤ 300)) ∧
    (∀ h : String, validateServerConfig { s with Host := h } = validateServerConfig s) ∧
    validateServerConfig ⟨"", 1, 1, 1⟩ = none ∧
    validateServerConfig ⟨"", 65535, 300, 300⟩ = none := by
  refine ⟨?_, fun h => rfl, by decide, by decide⟩
  rw [validateServerConfig, validate_none_iff, server_errors_opt]
  simp only [List.append_eq_nil, opt_eq_nil, decide_eq_false_iff_not, MaxReadWriteTimeout]
  constructor
  · rintro ⟨⟨⟨⟨h1, h2⟩, h3⟩, h4⟩, h5⟩
    exact ⟨⟨by omega, by omega⟩, ⟨by omega, by omega⟩, ⟨by omega, by omega⟩⟩
  · rintro ⟨⟨h1, h2⟩, ⟨h3, h4⟩, ⟨h5, h6⟩⟩
    exact ⟨⟨⟨⟨by omega, by omega⟩, by omega⟩, by omega⟩, by omega⟩

/-! ## Lemmas on the defaults, on fragment counts and on loading -/

theorem cpu_half_le : Float64.le (.finite (1 / 2)) (.finite 0) = false := by
  simp only [Float64.le, decide_eq_false_iff_not]; norm_num

theorem cpu_half_gt : Float64.gt (.finite (1 / 2)) (.finite 8) = false := by
  simp only [Float64.gt, Float64.lt, decide_eq_false_iff_not]; norm_num

theorem default_docker_ok (token : String) :
    validateDockerConfig (defaultConfig token).Docker = none := by
  rw [validateDockerConfig, validate_none_iff, docker_errors_opt]
  simp only [defaultConfig, cpu_half_le, cpu_half_gt]
  rfl

theorem default_logging_ok (caseTable : Char → Char) (token : String) :
    validateLoggingConfig caseTable (defaultConfig token).Logging = none := rfl

theorem default_server_ok (token : String) :
    validateServerConfig (defaultConfig token).Server = none := by
  rw [validateServerConfig, validate_none_iff, server_errors_opt]
  rfl

theorem defaultConfig_valid (caseTable : Char → Char) (token : String)
    (h : isValidBotToken token = true) :
    validateConfig caseTable (defaultConfig token) = none := by
  have hne : token ≠ "" := by
    rintro rfl
    revert h; decide
  have hb : validateBotConfig (defaultConfig token).Bot = none := by
    rw [validateBotConfig, validate_none_iff, bot_errors_opt]
    simp [opt, defaultConfig, hne, h]
  simp [validateConfig, validateConfig.errors, hb, default_docker_ok, default_logging_ok,
    default_server_ok]

theorem length_opt (b : Bool) (f : String) : (opt b f).length = b.toNat := by
  cases b <;> rfl

theorem toNat_pair (a b : Bool) (h : ¬ (a = true ∧ b = true)) : a.toNat + b.toNat ≤ 1 := by
  cases a <;> cases b <;> simp_all

theorem toNat_le_one (a : Bool) : a.toNat ≤ 1 := by cases a <;> simp

theorem Float64_low_high (v : Float64) :
    ¬ (Float64.le v (.finite 0) = true ∧ Float64.gt v (.finite 8) = true) := by
  cases v with
  | nan => simp [Float64.le]
  | negInf => simp [Float64.gt, Float64.lt]
  | posInf => simp [Float64.le]
  | finite q =>
    simp only [Float64.le, Float64.gt, Float64.lt, decide_eq_true_eq, not_and, not_lt]
    intro h; linarith

theorem bot_errors_le (b : BotConfig) : (validateBotConfig.errors b).length ≤ 3 := by
  rw [bot_errors_opt]
  simp only [List.length_append, length_opt]
  have h1 := toNat_pair (decide (b.Token = ""))
    (decide (b.Token ≠ "" ∧ (!isValidBotToken b.Token) = true)) (by simp; tauto)
  have h2 := toNat_pair (decide (b.MaxConcurrentCommands < 1))
    (decide (b.MaxConcurrentCommands > 100)) (by simp only [decide_eq_true_eq]; omega)
  have h3 := toNat_le_one (decide (b.Prefix = ""))
  omega

theorem docker_errors_le (d : DockerConfig) : (validateDockerConfig.errors d).length ≤ 6 := by
  rw [docker_errors_opt]
  simp only [List.length_append, length_opt, MaxDefaultTimeoutSeconds, MaxRuntimeSeconds]
  have h1 := toNat_pair (decide (d.DefaultTimeout < 1)) (decide (d.DefaultTimeout > 3600))
    (by simp only [decide_eq_true_eq]; omega)
  have h2 := toNat_pair (decide (d.MaxRuntime < 1)) (decide (d.MaxRuntime > 7200))
    (by simp only [decide_eq_true_eq]; omega)
  have h3 := toNat_pair (decide (d.MemoryLimit < 16)) (decide (d.MemoryLimit > 4096))
    (by simp only [decide_eq_true_eq]; omega)
  have h4 := toNat_pair _ _ (Float64_low_high d.CPULimit)
  have h5 := toNat_le_one (decide (d.Host = ""))
  have h6 := toNat_le_one (decide (d.NetworkName = ""))
  omega

theorem logging_errors_le (caseTable : Char → Char) (l : LoggingConfig) :
    (validateLoggingConfig.errors caseTable l).length ≤ 2 := by
  rw [logging_errors_opt]
  simp only [List.length_append, length_opt]
  have h1 := toNat_le_one (!(mapIndex validLevels (ToLower caseTable l.Level)))
  have h2 := toNat_le_one (!(mapIndex validFormats (ToLower caseTable l.Format)))
  omega

theorem server_errors_le (s : ServerConfig) : (validateServerConfig.errors s).length ≤ 3 := by
  rw [server_errors_opt]
  simp only [List.length_append, length_opt, MaxReadWriteTimeout]
  have h1 := toNat_pair (decide (s.ReadTimeout < 1)) (decide (s.ReadTimeout > 300))
    (by simp only [decide_eq_true_eq]; omega)
  have h2 := toNat_pair (decide (s.WriteTimeout < 1)) (decide (s.WriteTimeout > 300))
    (by simp only [decide_eq_true_eq]; omega)
  have h3 := toNat_le_one (decide (s.Port < 1 ∨ s.Port > 65535))
  omega

theorem report_checks_le (caseTable : Char → Char) (c : Config) :
    (report c (checks caseTable)).length ≤ 14 := by
  rw [report_checks, ← bot_errors_eq, ← docker_errors_eq, ← logging_errors_eq,
    ← server_errors_eq]
  simp only [List.length_append]
  have := bot_errors_le c.Bot
  have := docker_errors_le c.Docker
  have := logging_errors_le caseTable c.Logging
  have := server_errors_le c.Server
  omega

theorem fragmentsIn_checks (caseTable : Char → Char) (c : Config) (msg : String)
    (h : ∀ r ∈ checks caseTable, Contains msg r.fragment = true ↔ r.violated c = true) :
    fragmentsIn caseTable msg = report c (checks caseTable) := by
  have e1 : fragmentsIn caseTable msg =
      ((rules caseTable).map (fun r => r.fragment)).filter (fun f => Contains msg f) := by
    rw [fragmentsIn, List.filter_map]; rfl
  have e2 : (rules caseTable).map (fun r => r.fragment) =
      (checks caseTable).map (fun r => r.fragment) := rfl
  rw [e1, e2, List.filter_map, report]
  congr 1
  apply List.filter_congr
  intro r hr
  have := h r hr
  cases hv : r.violated c <;> simp_all

theorem pair_filter_le (p : String → Bool) (f g : String) (h : ¬ (p f = true ∧ p g = true)) :
    ([f, g].filter p).length ≤ 1 := by
  cases hf : p f <;> cases hg : p g <;> simp_all [List.filter_cons]

theorem single_filter_le (p : String → Bool) (f : String) : ([f].filter p).length ≤ 1 := by
  cases hf : p f <;> simp [List.filter_cons, hf]

theorem bindEnvs_spec (co : Coercion) (w : World) (keys : List String) (s : Store) :
    Load.bindEnvs (specViper co w) keys s =
      (none, { s with boundKeys := keys.reverse ++ s.boundKeys }) := by
  induction keys generalizing s with
  | nil => rfl
  | cons k ks ih =>
    show Load.bindEnvs (specViper co w) ks { s with boundKeys := k :: s.boundKeys } = _
    rw [ih]; simp

theorem configure_spec (co : Coercion) (w : World) (s : Store) :
    Load.bindEnvs (specViper co w) envBindings (Load.configure (specViper co w) s) =
      (none, loadStore s) := by
  rw [bindEnvs_spec]; rfl

theorem Load_spec (caseTable : Char → Char) (co : Coercion) (w : World) (s : Store) :
    Load caseTable (specViper co w) s =
      match specReadInConfig w (loadStore s) with
      | (some (.other msg), t) => ((none, some ("failed to read config file: " ++ msg)), t)
      | (_, t) => (Load.finish caseTable (specUnmarshal co w t), t) := by
  unfold Load
  simp only [configure_spec]
  have e1 : (specViper co w).ReadInConfig = specReadInConfig w := rfl
  have e2 : (specViper co w).Unmarshal = specUnmarshal co w := rfl
  rw [e1, e2]
  rcases specReadInConfig w (loadStore s) with ⟨rr, t⟩
  rcases rr with _ | ⟨m | m⟩
  all_goals first
    | rfl
    | (simp only [Load.finish]
       rcases specUnmarshal co w t with msg | config
       · rfl
       · cases hv : validateConfig caseTable config <;> simp [hv])

theorem findConfigFile_none (w : World) (h : ∀ dir name, w.fileAt dir name = none)
    (name : String) (dirs : List String) : findConfigFile w name dirs = none := by
  induction dirs with
  | nil => rfl
  | cons d ds ih => simp [findConfigFile, h, ih]

theorem Load_spec_no_file (caseTable : Char → Char) (co : Coercion) (w : World) (s : Store)
    (h : ∀ dir name, w.fileAt dir name = none) :
    Load caseTable (specViper co w) s =
      (Load.finish caseTable (specUnmarshal co w (loadStore s)), loadStore s) := by
  rw [Load_spec, specReadInConfig, findConfigFile_none w h]

theorem lookupKey_append (key : String) (a b : List (String × Value)) :
    lookupKey key (a ++ b) =
      match lookupKey key a with
      | some v => some v
      | none => lookupKey key b := by
  induction a with
  | nil => rfl
  | cons p a ih =>
    obtain ⟨k, v⟩ := p
    by_cases hk : k = key <;> simp [lookupKey, hk, ih]

theorem lookupKey_loadStore_twice (s : Store) (key : String) :
    lookupKey key (loadStore (loadStore s)).defaults = lookupKey key (loadStore s).defaults := by
  show lookupKey key (loadDefaults ++ (loadDefaults ++ s.defaults)) =
    lookupKey key (loadDefaults ++ s.defaults)
  rw [lookupKey_append, lookupKey_append key loadDefaults s.defaults]
  cases lookupKey key loadDefaults <;> rfl

theorem resolve_loadStore_twice (w : World) (s : Store) (key : String) :
    resolve w (loadStore (loadStore s)) key = resolve w (loadStore s) key := by
  unfold resolve
  rw [lookupKey_loadStore_twice]
  rfl

theorem knownKey_loadStore_twice (s : Store) (key : String) :
    knownKey (loadStore (loadStore s)) key = knownKey (loadStore s) key := by
  have m : decide (key ∈ (loadStore (loadStore s)).boundKeys) =
      decide (key ∈ (loadStore s).boundKeys) := by
    show decide (key ∈ envBindings.reverse ++ (envBindings.reverse ++ s.boundKeys)) =
      decide (key ∈ envBindings.reverse ++ s.boundKeys)
    exact decide_eq_decide.2 (by simp only [List.mem_append]; tauto)
  unfold knownKey
  rw [lookupKey_loadStore_twice, m]
  rfl

theorem specUnmarshal_loadStore_twice (co : Coercion) (w : World) (s : Store) :
    specUnmarshal co w (loadStore (loadStore s)) = specUnmarshal co w (loadStore s) := by
  simp only [specUnmarshal, setting, knownKey_loadStore_twice, resolve_loadStore_twice]

theorem envVarName_bound : ∀ key ∈ envBindings,
    envVarNameWith "DCE" (some (".", "_")) key = dceName key := by decide

theorem dceName_other : ∀ key ∈ envBindings, key ≠ "bot.token" →
    "DCE_".data <+: (dceName key).data ∧ dceName key ≠ "DCE_BOT_TOKEN" := by decide

theorem except_bind_ok {ε α β : Type} (x : Except ε α) (f : α → Except ε β) (b : β) :
    (x >>= f) = .ok b ↔ ∃ a, x = .ok a ∧ f a = .ok b := by
  cases x <;> simp [bind, Except.bind]

theorem except_pure_ok {ε α : Type} (a b : α) : (pure a : Except ε α) = .ok b ↔ a = b := by
  simp [pure, Except.pure]

theorem specUnmarshal_ok (co : Coercion) (w : World) (t : Store) (cfg : Config)
    (h : specUnmarshal co w t = .ok cfg) :
    decodeField co.toStr "" (setting w t "bot.token") = .ok cfg.Bot.Token ∧
    decodeField co.toStr "" (setting w t "bot.prefix") = .ok cfg.Bot.Prefix ∧
    decodeField co.toStr "" (setting w t "bot.guild_id") = .ok cfg.Bot.GuildID ∧
    decodeField co.toInt 0 (setting w t "bot.max_concurrent_commands") =
      .ok cfg.Bot.MaxConcurrentCommands ∧
    decodeField co.toStr "" (setting w t "docker.host") = .ok cfg.Docker.Host ∧
    decodeField co.toStr "" (setting w t "docker.network_name") = .ok cfg.Docker.NetworkName ∧
    decodeField co.toFloat (.finite 0) (setting w t "docker.cpu_limit") =
      .ok cfg.Docker.CPULimit ∧
    decodeField co.toInt 0 (setting w t "docker.default_timeout") =
      .ok cfg.Docker.DefaultTimeout ∧
    decodeField co.toInt 0 (setting w t "docker.max_runtime") = .ok cfg.Docker.MaxRuntime ∧
    decodeField co.toInt 0 (setting w t "docker.memory_limit") = .ok cfg.Docker.MemoryLimit ∧
    decodeField co.toStr "" (setting w t "logging.level") = .ok cfg.Logging.Level ∧
    decodeField co.toStr "" (setting w t "logging.format") = .ok cfg.Logging.Format ∧
    decodeField co.toStr "" (setting w t "logging.output_file") = .ok cfg.Logging.OutputFile ∧
    decodeField co.toBool false (setting w t "logging.report_caller") =
      .ok cfg.Logging.ReportCaller ∧
    decodeField co.toStr "" (setting w t "server.host") = .ok cfg.Server.Host ∧
    decodeField co.toInt 0 (setting w t "server.port") = .ok cfg.Server.Port ∧
    decodeField co.toInt 0 (setting w t "server.read_timeout") = .ok cfg.Server.ReadTimeout ∧
    decodeField co.toInt 0 (setting w t "server.write_timeout") = .ok cfg.Server.WriteTimeout := by
  simp only [specUnmarshal, except_bind_ok, except_pure_ok] at h
  obtain ⟨a1, h1, a2, h2, a3, h3, a4, h4, a5, h5, a6, h6, a7, h7, a8, h8, a9, h9, a10, h10,
    a11, h11, a12, h12, a13, h13, a14, h14, a15, h15, a16, h16, a17, h17, a18, h18, e⟩ := h
  subst e
  exact ⟨h1, h2, h3, h4, h5, h6, h7, h8, h9, h10, h11, h12, h13, h14, h15, h16, h17, h18⟩

theorem getEnv_some (w : World) (name text : String) (he : w.env name = some text)
    (hne : text ≠ "") : getEnv w name = some text := by
  simp [getEnv, he, hne]

theorem getEnv_none (w : World) (name : String) (he : w.env name = none) :
    getEnv w name = none := by
  simp [getEnv, he]

theorem setting_env (w : World) (t : Store) (key text : String) (ha : t.automaticEnv = true)
    (hp : t.envPrefix = "DCE") (hr : t.envKeyReplacer = some (".", "_"))
    (hb : ∀ k ∈ envBindings, k ∈ t.boundKeys)
    (hk : key ∈ envBindings) (he : w.env (dceName key) = some text) (hne : text ≠ "") :
    setting w t key = some (.str text) := by
  unfold setting knownKey resolve envVarName
  rw [hp, hr, envVarName_bound key hk, getEnv_some w _ text he hne]
  simp [ha, hb key hk]

theorem specReadInConfig_env (w : World) (s : Store) :
    (specReadInConfig w s).2.automaticEnv = s.automaticEnv ∧
    (specReadInConfig w s).2.envPrefix = s.envPrefix ∧
    (specReadInConfig w s).2.envKeyReplacer = s.envKeyReplacer ∧
    (specReadInConfig w s).2.boundKeys = s.boundKeys := by
  unfold specReadInConfig
  rcases findConfigFile w s.configName s.configPaths with _ | ⟨_ | _⟩ <;>
    exact ⟨rfl, rfl, rfl, rfl⟩

theorem finish_ok (caseTable : Char → Char) (r : Except String Config) (cfg : Config) :
    Load.finish caseTable r = (some cfg, none) ↔
      r = .ok cfg ∧ validateConfig caseTable cfg = none := by
  rcases r with msg | config
  · simp [Load.finish]
  · cases hv : validateConfig caseTable config
    · simp only [Load.finish, hv, Prod.mk.injEq, Option.some.injEq, and_true, Except.ok.injEq]
      constructor
      · intro e; subst e; exact ⟨rfl, hv⟩
      · intro e; exact e.1
    · simp only [Load.finish, hv, Prod.mk.injEq, Except.ok.injEq]
      constructor
      · intro e; exact absurd e.1 (by simp)
      · intro e; rw [e.1, e.2] at hv; cases hv

theorem Load_spec_ok (caseTable : Char → Char) (co : Coercion) (w : World) (s : Store)
    (cfg : Config) (h : (Load caseTable (specViper co w) s).1 = (some cfg, none)) :
    ∃ t : Store, t.automaticEnv = true ∧ t.envPrefix = "DCE" ∧
      t.envKeyReplacer = some (".", "_") ∧ (∀ k ∈ envBindings, k ∈ t.boundKeys) ∧
      specUnmarshal co w t = .ok cfg ∧ validateConfig caseTable cfg = none := by
  rw [Load_spec] at h
  have hs := specReadInConfig_env w (loadStore s)
  rcases hrd : specReadInConfig w (loadStore s) with ⟨rr, t⟩
  rw [hrd] at h hs
  have key := (finish_ok caseTable (specUnmarshal co w t) cfg).1
  have hb : ∀ k ∈ envBindings, k ∈ t.boundKeys := by
    intro k hk
    rw [hs.2.2.2]
    exact List.mem_append_left _ (List.mem_reverse.2 hk)
  refine ⟨t, hs.1, hs.2.1, hs.2.2.1, hb, ?_⟩
  rcases rr with _ | ⟨m | m⟩
  · exact key (by simpa using h)
  · exact key (by simpa using h)
  · simp at h

theorem setting_fresh (w : World) (key : String) (hk : key ∈ envBindings) :
    setting w (loadStore Store.fresh) key =
      match getEnv w (dceName key) with
      | some text => some (.str text)
      | none => lookupKey key loadDefaults := by
  have hb : key ∈ (loadStore Store.fresh).boundKeys :=
    List.mem_append_left _ (List.mem_reverse.2 hk)
  have hkn : knownKey (loadStore Store.fresh) key = true := by
    simp [knownKey, hb]
  unfold setting resolve envVarName
  have e1 : (loadStore Store.fresh).envPrefix = "DCE" := rfl
  have e2 : (loadStore Store.fresh).envKeyReplacer = some (".", "_") := rfl
  have e3 : (loadStore Store.fresh).automaticEnv = true := rfl
  have e4 : (loadStore Store.fresh).fileValues = [] := rfl
  have e5 : (loadStore Store.fresh).defaults = loadDefaults ++ [] := rfl
  rw [hkn, e1, e2, e3, e4, e5, envVarName_bound key hk, List.append_nil]
  simp only [true_or, if_true]
  rfl

theorem digitChar_toNat : ∀ k < 10, (Nat.digitChar k).toNat - '0'.toNat = k := by decide

theorem toDigitsCore_value (fuel : Nat) :
    ∀ n : Nat, ∀ ds : List Char, n < fuel →
      ∃ pre, Nat.toDigitsCore 10 fuel n ds = pre ++ ds ∧
        pre.foldl (fun acc c => 10 * acc + (c.toNat - '0'.toNat)) 0 = n := by
  induction fuel with
  | zero => intro n ds h; omega
  | succ fuel ih =>
    intro n ds h
    unfold Nat.toDigitsCore
    by_cases h0 : n / 10 = 0
    · refine ⟨[Nat.digitChar (n % 10)], by simp [h0], ?_⟩
      have := digitChar_toNat (n % 10) (Nat.mod_lt _ (by decide))
      simp only [List.foldl_cons, List.foldl_nil, this]
      omega
    · obtain ⟨pre, e, v⟩ := ih (n / 10) (Nat.digitChar (n % 10) :: ds) (by omega)
      refine ⟨pre ++ [Nat.digitChar (n % 10)], by simp [h0, e], ?_⟩
      have := digitChar_toNat (n % 10) (Nat.mod_lt _ (by decide))
      simp only [List.foldl_append, List.foldl_cons, List.foldl_nil, v, this]
      omega

theorem readNat_toString (n : Nat) : readNat (toString n) = some n := by
  obtain ⟨pre, e, v⟩ := toDigitsCore_value (n + 1) n [] (by omega)
  have hd : (toString n).data = pre := by
    show Nat.toDigits 10 n = pre
    rw [Nat.toDigits, e, List.append_nil]
  unfold readNat
  simp only [hd, v, if_true]

theorem plainCoercion_keepsTyped : plainCoercion.KeepsTyped :=
  ⟨fun _ => rfl, fun _ => rfl, fun _ => rfl, fun _ => rfl⟩

theorem plainCoercion_readsText : plainCoercion.ReadsText :=
  ⟨fun n h => by simp only [plainCoercion, readNat_toString, h, if_true],
   fun n h => by simp only [plainCoercion, readNat_toString, h, if_true], rfl, rfl⟩

theorem withPrefix_valid (caseTable : Char → Char) (token pre : String)
    (h : isValidBotToken token = true) (hp : pre ≠ "") :
    validateConfig caseTable (withPrefix token pre) = none := by
  have hne : token ≠ "" := by
    rintro rfl
    revert h; decide
  have hb : validateBotConfig (withPrefix token pre).Bot = none := by
    rw [validateBotConfig, validate_none_iff, bot_errors_opt]
    simp [opt, withPrefix, hne, hp, h]
  have hd : validateDockerConfig (withPrefix token pre).Docker = none := default_docker_ok token
  have hl : validateLoggingConfig caseTable (withPrefix token pre).Logging = none := rfl
  have hs : validateServerConfig (withPrefix token pre).Server = none := default_server_ok token
  simp [validateConfig, validateConfig.errors, hb, hd, hl, hs]

theorem cpu_two_le : Float64.le (.finite 2) (.finite 0) = false := by
  simp only [Float64.le]; norm_num

theorem cpu_two_gt : Float64.gt (.finite 2) (.finite 8) = false := by
  simp only [Float64.gt, Float64.lt]; norm_num

theorem overridesConfig_valid (caseTable : Char → Char) :
    validateConfig caseTable overridesConfig = none := by
  have hb : validateBotConfig overridesConfig.Bot = none := by decide
  have hd : validateDockerConfig overridesConfig.Docker = none := by
    rw [validateDockerConfig, validate_none_iff, docker_errors_opt]
    simp only [overridesConfig, cpu_two_le, cpu_two_gt]
    rfl
  have hl : validateLoggingConfig caseTable overridesConfig.Logging = none := rfl
  have hs : validateServerConfig overridesConfig.Server = none := by
    rw [validateServerConfig, validate_none_iff, server_errors_opt]
    rfl
  simp [validateConfig, validateConfig.errors, hb, hd, hl, hs]

theorem toString_nat_ne_empty (n : Nat) : toString n ≠ "" := by
  intro h
  have e : readNat "" = none := by decide
  have := readNat_toString n
  rw [h, e] at this
  cases this

theorem specUnmarshal_fresh_defaults (co : Coercion) (w : World) (token : String)
    (hco : co.KeepsTyped)
    (htok : getEnv w "DCE_BOT_TOKEN" = some token)
    (honly : ∀ key ∈ envBindings, key ≠ "bot.token" → getEnv w (dceName key) = none) :
    specUnmarshal co w (loadStore Store.fresh) = .ok (defaultConfig token) := by
  have other : ∀ key ∈ envBindings, key ≠ "bot.token" →
      setting w (loadStore Store.fresh) key = lookupKey key loadDefaults := by
    intro key hk hne
    rw [setting_fresh w key hk, honly key hk hne]
  have tok : setting w (loadStore Store.fresh) "bot.token" = some (.str token) := by
    rw [setting_fresh w _ (by decide)]
    have : dceName "bot.token" = "DCE_BOT_TOKEN" := by decide
    rw [this, htok]
  unfold specUnmarshal
  rw [tok, other "bot.prefix" (by decide) (by decide),
    other "bot.guild_id" (by decide) (by decide),
    other "bot.max_concurrent_commands" (by decide) (by decide),
    other "docker.host" (by decide) (by decide),
    other "docker.network_name" (by decide) (by decide),
    other "docker.cpu_limit" (by decide) (by decide),
    other "docker.default_timeout" (by decide) (by decide),
    other "docker.max_runtime" (by decide) (by decide),
    other "docker.memory_limit" (by decide) (by decide),
    other "logging.level" (by decide) (by decide),
    other "logging.format" (by decide) (by decide),
    other "logging.output_file" (by decide) (by decide),
    other "logging.report_caller" (by decide) (by decide),
    other "server.host" (by decide) (by decide),
    other "server.port" (by decide) (by decide),
    other "server.read_timeout" (by decide) (by decide),
    other "server.write_timeout" (by decide) (by decide)]
  have l1 : lookupKey "bot.prefix" loadDefaults = some (.str "!") := rfl
  have l2 : lookupKey "bot.guild_id" loadDefaults = none := rfl
  have l3 : lookupKey "bot.max_concurrent_commands" loadDefaults = some (.int 10) := rfl
  have l4 : lookupKey "docker.host" loadDefaults =
      some (.str "unix:///var/run/docker.sock") := rfl
  have l5 : lookupKey "docker.network_name" loadDefaults =
      some (.str "discord-executor") := rfl
  have l6 : lookupKey "docker.cpu_limit" loadDefaults = some (.float (.finite (1 / 2))) := rfl
  have l7 : lookupKey "docker.default_timeout" loadDefaults =
      some (.int DefaultDockerTimeout) := rfl
  have l8 : lookupKey "docker.max_runtime" loadDefaults = some (.int DefaultMaxRuntime) := rfl
  have l9 : lookupKey "docker.memory_limit" loadDefaults = some (.int 128) := rfl
  have l10 : lookupKey "logging.level" loadDefaults = some (.str "info") := rfl
  have l11 : lookupKey "logging.format" loadDefaults = some (.str "text") := rfl
  have l12 : lookupKey "logging.output_file" loadDefaults = none := rfl
  have l13 : lookupKey "logging.report_caller" loadDefaults = some (.bool false) := rfl
  have l14 : lookupKey "server.host" loadDefaults = some (.str "0.0.0.0") := rfl
  have l15 : lookupKey "server.port" loadDefaults = some (.int 8080) := rfl
  have l16 : lookupKey "server.read_timeout" loadDefaults = some (.int 10) := rfl
  have l17 : lookupKey "server.write_timeout" loadDefaults = some (.int 10) := rfl
  rw [l1, l2, l3, l4, l5, l6, l7, l8, l9, l10, l11, l12, l13, l14, l15, l16, l17]
  simp only [decodeField, hco.1, hco.2.1, hco.2.2.1, hco.2.2.2, bind, Except.bind, pure,
    Except.pure, defaultConfig]

theorem specUnmarshal_fresh_prefix (co : Coercion) (w : World) (token pre : String)
    (hco : co.KeepsTyped)
    (htok : getEnv w "DCE_BOT_TOKEN" = some token)
    (hpre : getEnv w "DCE_BOT_PREFIX" = some pre)
    (honly : ∀ key ∈ envBindings, key ≠ "bot.token" → key ≠ "bot.prefix" →
      getEnv w (dceName key) = none) :
    specUnmarshal co w (loadStore Store.fresh) = .ok (withPrefix token pre) := by
  have other : ∀ key ∈ envBindings, key ≠ "bot.token" → key ≠ "bot.prefix" →
      setting w (loadStore Store.fresh) key = lookupKey key loadDefaults := by
    intro key hk hne hne2
    rw [setting_fresh w key hk, honly key hk hne hne2]
  have tok : setting w (loadStore Store.fresh) "bot.token" = some (.str token) := by
    rw [setting_fresh w _ (by decide)]
    have : dceName "bot.token" = "DCE_BOT_TOKEN" := by decide
    rw [this, htok]
  have pr : setting w (loadStore Store.fresh) "bot.prefix" = some (.str pre) := by
    rw [setting_fresh w _ (by decide)]
    have : dceName "bot.prefix" = "DCE_BOT_PREFIX" := by decide
    rw [this, hpre]
  unfold specUnmarshal
  rw [tok, pr,
    other "bot.guild_id" (by decide) (by decide) (by decide),
    other "bot.max_concurrent_commands" (by decide) (by decide) (by decide),
    other "docker.host" (by decide) (by decide) (by decide),
    other "docker.network_name" (by decide) (by decide) (by decide),
    other "docker.cpu_limit" (by decide) (by decide) (by decide),
    other "docker.default_timeout" (by decide) (by decide) (by decide),
    other "docker.max_runtime" (by decide) (by decide) (by decide),
    other "docker.memory_limit" (by decide) (by decide) (by decide),
    other "logging.level" (by decide) (by decide) (by decide),
    other "logging.format" (by decide) (by decide) (by decide),
    other "logging.output_file" (by decide) (by decide) (by decide),
    other "logging.report_caller" (by decide) (by decide) (by decide),
    other "server.host" (by decide) (by decide) (by decide),
    other "server.port" (by decide) (by decide) (by decide),
    other "server.read_timeout" (by decide) (by decide) (by decide),
    other "server.write_timeout" (by decide) (by decide) (by decide)]
  have l2 : lookupKey "bot.guild_id" loadDefaults = none := rfl
  have l3 : lookupKey "bot.max_concurrent_commands" loadDefaults = some (.int 10) := rfl
  have l4 : lookupKey "docker.host" loadDefaults =
      some (.str "unix:///var/run/docker.sock") := rfl
  have l5 : lookupKey "docker.network_name" loadDefaults =
      some (.str "discord-executor") := rfl
  have l6 : lookupKey "docker.cpu_limit" loadDefaults = some (.float (.finite (1 / 2))) := rfl
  have l7 : lookupKey "docker.default_timeout" loadDefaults =
      some (.int DefaultDockerTimeout) := rfl
  have l8 : lookupKey "docker.max_runtime" loadDefaults = some (.int DefaultMaxRuntime) := rfl
  have l9 : lookupKey "docker.memory_limit" loadDefaults = some (.int 128) := rfl
  have l10 : lookupKey "logging.level" loadDefaults = some (.str "info") := rfl
  have l11 : lookupKey "logging.format" loadDefaults = some (.str "text") := rfl
  have l12 : lookupKey "logging.output_file" loadDefaults = none := rfl
  have l13 : lookupKey "logging.report_caller" loadDefaults = some (.bool false) := rfl
  have l14 : lookupKey "server.host" loadDefaults = some (.str "0.0.0.0") := rfl
  have l15 : lookupKey "server.port" loadDefaults = some (.int 8080) := rfl
  have l16 : lookupKey "server.read_timeout" loadDefaults = some (.int 10) := rfl
  have l17 : lookupKey "server.write_timeout" loadDefaults = some (.int 10) := rfl
  rw [l2, l3, l4, l5, l6, l7, l8, l9, l10, l11, l12, l13, l14, l15, l16, l17]
  simp only [decodeField, hco.1, hco.2.1, hco.2.2.1, hco.2.2.2, bind, Except.bind, pure,
    Except.pure, defaultConfig, withPrefix]

theorem dceName_prefix : ∀ key ∈ envBindings, key ≠ "bot.prefix" →
    dceName key ≠ "DCE_BOT_PREFIX" := by decide

theorem findConfigFile_congr (w w2 : World) (h : w2.fileAt = w.fileAt) (name : String)
    (dirs : List String) : findConfigFile w2 name dirs = findConfigFile w name dirs := by
  induction dirs with
  | nil => rfl
  | cons d ds ih => simp only [findConfigFile, h, ih]

theorem Load_congr (caseTable : Char → Char) (co : Coercion) (w w2 : World) (s : Store)
    (hf : w2.fileAt = w.fileAt) (he : ∀ name, getEnv w2 name = getEnv w name) :
    Load caseTable (specViper co w2) s = Load caseTable (specViper co w) s := by
  have hr : specReadInConfig w2 = specReadInConfig w := by
    funext t
    simp only [specReadInConfig, findConfigFile_congr w w2 hf]
  have hu : specUnmarshal co w2 = specUnmarshal co w := by
    funext t
    simp only [specUnmarshal, setting, resolve, he]
  rw [Load_spec, Load_spec, hr, hu]

theorem emptyVarsWorld_getEnv (name : String) :
    getEnv emptyVarsWorld name = getEnv tokenOnlyWorld name := by
  simp only [getEnv, emptyVarsWorld, tokenOnlyWorld]
  split_ifs <;> rfl

theorem overridesWorld_load :
    (Load id (specViper plainCoercion overridesWorld) Store.fresh).1 =
      (some overridesConfig, none) := by
  rw [Load_spec]
  have e : specReadInConfig overridesWorld (loadStore Store.fresh) =
      (none, { loadStore Store.fresh with
        fileValues := [("bot.prefix", .str "?"), ("server.port", .int 7070),
          ("server.host", .str "localhost")] }) := rfl
  rw [e]
  exact (finish_ok id _ _).2 ⟨rfl, overridesConfig_valid id⟩

set_option maxRecDepth 100000 in
theorem zeroMessage_eq : validateConfig id zeroConfig = some zeroMessage := by decide

/-! ## The claims on the cpu limit, on aggregation, on the defaults and on loading -/

/-- C11: on a Docker section that is valid in its other fields, `validateDockerConfig` is meant
to return no error iff `0 < cpuLimit ≤ 8.0`, for every value of the float field. The code
departs from this at one value: a `cpuLimit` that is not a number fails `0 < v` and is
accepted all the same. For every other value, the infinities included, the equivalence holds;
`8.0` is accepted and `0` is rejected with the message `CPU limit must be greater than 0`. -/
theorem validateDockerConfig_cpuLimit_range (d : DockerConfig) (hHost : d.Host ≠ "")
    (hNet : d.NetworkName ≠ "")
    (hdt : 1 ≤ d.DefaultTimeout ∧ d.DefaultTimeout ≤ 3600)
    (hmr : 1 ≤ d.MaxRuntime ∧ d.MaxRuntime ≤ 7200)
    (hmem : 16 ≤ d.MemoryLimit ∧ d.MemoryLimit ≤ 4096) :
    (validateDockerConfig { d with CPULimit := .nan } = none ∧
      Float64.lt (.finite 0) .nan = false) ∧
    (∀ v : Float64, v ≠ .nan →
      (validateDockerConfig { d with CPULimit := v } = none ↔
        Float64.lt (.finite 0) v = true ∧ Float64.le v (.finite 8) = true)) ∧
    validateDockerConfig { d with CPULimit := .finite 8 } = none ∧
    validateDockerConfig { d with CPULimit := .finite 0 } =
      some "CPU limit must be greater than 0" := by
  have e : ∀ v : Float64, validateDockerConfig.errors { d with CPULimit := v } =
      opt (Float64.le v (.finite 0)) "CPU limit must be greater than 0" ++
      opt (Float64.gt v (.finite 8)) "CPU limit should not exceed 8.0" := by
    intro v
    have h1 : ¬ d.DefaultTimeout < 1 := by omega
    have h2 : ¬ d.DefaultTimeout > 3600 := by omega
    have h3 : ¬ d.MaxRuntime < 1 := by omega
    have h4 : ¬ d.MaxRuntime > 7200 := by omega
    have h5 : ¬ d.MemoryLimit < 16 := by omega
    have h6 : ¬ d.MemoryLimit > 4096 := by omega
    rw [docker_errors_opt]
    simp [opt, hHost, hNet, h1, h2, h3, h4, h5, h6, MaxDefaultTimeoutSeconds, MaxRuntimeSeconds]
  refine ⟨⟨?_, rfl⟩, fun v hv => ?_, ?_, ?_⟩
  · rw [validateDockerConfig, validate_none_iff, e]; rfl
  · rw [validateDockerConfig, validate_none_iff, e, Float64_le_zero v hv, Float64_gt_eight v hv]
    simp [opt_eq_nil]
  · rw [validateDockerConfig, validate_none_iff, e]; decide
  · have : validateDockerConfig.errors { d with CPULimit := .finite 0 } =
        ["CPU limit must be greater than 0"] := by rw [e]; decide
    rw [validateDockerConfig, this]; rfl

/-- C11 at the Docker section of the defaults: not-a-number and `8.0` are accepted, `0` is
rejected. -/
theorem validateDockerConfig_cpuLimit_range_witness :
    validateDockerConfig ⟨"unix:///var/run/docker.sock", "discord-executor", .nan, 30, 300, 128⟩ =
      none ∧
    validateDockerConfig ⟨"unix:///var/run/docker.sock", "discord-executor", .finite 8, 30, 300,
      128⟩ = none ∧
    validateDockerConfig ⟨"unix:///var/run/docker.sock", "discord-executor", .finite 0, 30, 300,
      128⟩ = some "CPU limit must be greater than 0" :=
  have h := validateDockerConfig_cpuLimit_range
    ⟨"unix:///var/run/docker.sock", "discord-executor", .finite 1, 30, 300, 128⟩
    (by decide) (by decide) (by decide) (by decide) (by decide)
  ⟨h.1.1, h.2.2.1, h.2.2.2⟩

/-- C12: a configuration whose bot token is empty and whose logging level is, compared
case-insensitively, none of the allowed levels fails validation, and the one message holds
both `bot token is required` and `log level must be one of`, whatever the other fields
hold. -/
theorem validateConfig_reports_token_and_level (caseTable : Char → Char) (c : Config)
    (hTok : c.Bot.Token = "")
    (hLvl : ¬ ∃ name ∈ levelNames, eqIgnoreCase caseTable c.Logging.Level name) :
    ∃ msg, validateConfig caseTable c = some msg ∧
      Contains msg "bot token is required" = true ∧
      Contains msg "log level must be one of" = true := by
  have hl : ToLower caseTable c.Logging.Level ∉ levelNames := by
    intro hm
    exact hLvl ⟨_, hm, (ToLower_levelNames caseTable _ hm).symm⟩
  have m1 : (⟨fun c => c.Bot.Token = "",
      "bot token is required (set DCE_BOT_TOKEN environment variable)"⟩ : Rule) ∈
      checks caseTable := by
    simp [checks, botRules]
  have m2 : (⟨fun c => ToLower caseTable c.Logging.Level ∉
        ["debug", "info", "warn", "error", "fatal", "panic"],
      "log level must be one of: debug, info, warn, error, fatal, panic"⟩ : Rule) ∈
      checks caseTable := by
    simp [checks, loggingRules]
  rcases validateConfig_checks caseTable c with ⟨-, h0⟩ | ⟨msg, hm, h1, -, -⟩
  · have : "bot token is required (set DCE_BOT_TOKEN environment variable)" ∈
        report c (checks caseTable) := (mem_report c _ _).2 ⟨_, m1, by simp [hTok], rfl⟩
    rw [h0] at this; cases this
  · refine ⟨msg, hm, ?_, ?_⟩
    · have := (h1 _ m1).2 (by simp [hTok])
      rw [Contains_iff] at this ⊢
      exact List.IsInfix.trans ⟨[], " (set DCE_BOT_TOKEN environment variable)".data, rfl⟩ this
    · have := (h1 _ m2).2 (by simpa [levelNames] using hl)
      rw [Contains_iff] at this ⊢
      exact List.IsInfix.trans ⟨[], ": debug, info, warn, error, fatal, panic".data, rfl⟩ this

/-- C12 at the configuration of the test suite with the token removed and the level
`invalid`. -/
theorem validateConfig_reports_token_and_level_witness :
    ∃ msg, validateConfig id noTokenBadLevelConfig = some msg ∧
      Contains msg "bot token is required" = true ∧
      Contains msg "log level must be one of" = true :=
  validateConfig_reports_token_and_level id noTokenBadLevelConfig rfl
    (by unfold eqIgnoreCase; decide)

/-- C13: the configuration of the defaults passes `validateConfig` with every token that
`isValidBotToken` accepts; with the token left empty it fails, its message holds the
token-required fragment alone, and that rule is the only one violated. -/
theorem validateConfig_defaults (caseTable : Char → Char) (token : String)
    (h : isValidBotToken token = true) :
    validateConfig caseTable (defaultConfig token) = none ∧
    validateConfig caseTable (defaultConfig "") =
      some ("validation errors: bot config: " ++
        "bot token is required (set DCE_BOT_TOKEN environment variable)") ∧
    report (defaultConfig "") (rules caseTable) =
      ["bot token is required (set DCE_BOT_TOKEN environment variable)"] := by
  have hb0 : validateBotConfig (defaultConfig "").Bot =
      some "bot token is required (set DCE_BOT_TOKEN environment variable)" := by decide
  refine ⟨defaultConfig_valid caseTable token h, ?_, ?_⟩
  · simp [validateConfig, validateConfig.errors, hb0, default_docker_ok, default_logging_ok,
      default_server_ok, Join]
  · have hr : report (defaultConfig "") (checks caseTable) =
        ["bot token is required (set DCE_BOT_TOKEN environment variable)"] := by
      rw [report_checks, ← bot_errors_eq, ← docker_errors_eq, ← logging_errors_eq,
        ← server_errors_eq]
      have e1 : validateBotConfig.errors (defaultConfig "").Bot =
          ["bot token is required (set DCE_BOT_TOKEN environment variable)"] := by decide
      have e2 : validateDockerConfig.errors (defaultConfig "").Docker = [] :=
        (validate_none_iff _).1 (default_docker_ok "")
      have e3 : validateLoggingConfig.errors caseTable (defaultConfig "").Logging = [] := rfl
      have e4 : validateServerConfig.errors (defaultConfig "").Server = [] :=
        (validate_none_iff _).1 (default_server_ok "")
      rw [e1, e2, e3, e4]; rfl
    rw [report_rules caseTable _ (by simp [defaultConfig]), hr]

/-- C13 at the token of `TestLoadConfigDefaults`. -/
theorem validateConfig_defaults_witness :
    validateConfig id (defaultConfig "test.token.for.testing.purposes.only.this.is.not.real") =
      none :=
  (validateConfig_defaults id "test.token.for.testing.purposes.only.this.is.not.real"
    (by decide)).1

/-- C14: the result of `validateConfig`, message included, does not depend on `Bot.GuildID`,
`Logging.OutputFile`, `Logging.ReportCaller` or `Server.Host`: replacing these four fields by
any values leaves the result as it is. -/
theorem validateConfig_ignores_unconstrained_fields (caseTable : Char → Char) (c : Config)
    (g o h : String) (r : Bool) :
    validateConfig caseTable
      ⟨{ c.Bot with GuildID := g }, c.Docker,
       { c.Logging with OutputFile := o, ReportCaller := r }, { c.Server with Host := h }⟩ =
    validateConfig caseTable c := rfl

/-- C15: whatever the calls of the configuration library return, `Load` returns a
configuration or an error and never both or neither; a returned configuration has passed
`validateConfig`; and each path is as the source has it: a failing `BindEnv`, a config file
error other than not-found and a failing `Unmarshal` return no configuration and their
wrapped message, a validation failure returns no configuration and
`configuration validation failed: ` followed by the whole message of `validateConfig`. -/
theorem Load_returns_config_or_error {σ : Type} (caseTable : Char → Char) (viper : Viper σ)
    (s : σ) :
    ((Load caseTable viper s).1.1 = none ↔ (Load caseTable viper s).1.2 ≠ none) ∧
    (∀ cfg, (Load caseTable viper s).1.1 = some cfg →
      validateConfig caseTable cfg = none ∧ (Load caseTable viper s).1.2 = none) ∧
    (∀ s1 s2 rr cfg,
      Load.bindEnvs viper envBindings (Load.configure viper s) = (none, s1) →
      viper.ReadInConfig s1 = (rr, s2) → (∀ m, rr ≠ some (.other m)) →
      viper.Unmarshal s2 = .ok cfg →
      (∀ msg, validateConfig caseTable cfg = some msg →
        (Load caseTable viper s).1 = (none, some ("configuration validation failed: " ++ msg))) ∧
      (validateConfig caseTable cfg = none → (Load caseTable viper s).1 = (some cfg, none))) ∧
    (∀ err s1, Load.bindEnvs viper envBindings (Load.configure viper s) = (some err, s1) →
      (Load caseTable viper s).1 = (none, some err)) ∧
    (∀ s1 s2 m, Load.bindEnvs viper envBindings (Load.configure viper s) = (none, s1) →
      viper.ReadInConfig s1 = (some (.other m), s2) →
      (Load caseTable viper s).1 = (none, some ("failed to read config file: " ++ m))) ∧
    (∀ s1 s2 rr m, Load.bindEnvs viper envBindings (Load.configure viper s) = (none, s1) →
      viper.ReadInConfig s1 = (rr, s2) → (∀ m, rr ≠ some (.other m)) →
      viper.Unmarshal s2 = .error m →
      (Load caseTable viper s).1 = (none, some ("failed to unmarshal configuration: " ++ m))) := by
  refine ⟨?_, ?_, ?_, ?_, ?_, ?_⟩
  · unfold Load
    simp only
    split
    · simp
    · split
      · simp
      · split
        · simp
        · split <;> simp
  · intro cfg
    unfold Load
    simp only
    split
    · simp
    · split
      · simp
      · split
        · simp
        · split
          · simp
          · rename_i hv
            intro h
            simp only [Option.some.injEq] at h
            subst h
            exact ⟨hv, rfl⟩
  · intro s1 s2 rr cfg h1 h2 h3 h4
    constructor
    · intro msg hv
      unfold Load
      simp only [h1, h2]
      cases rr with
      | none => simp [h4, hv]
      | some e =>
        cases e with
        | configFileNotFound m => simp [h4, hv]
        | other m => exact absurd rfl (h3 m)
    · intro hv
      unfold Load
      simp only [h1, h2]
      cases rr with
      | none => simp [h4, hv]
      | some e =>
        cases e with
        | configFileNotFound m => simp [h4, hv]
        | other m => exact absurd rfl (h3 m)
  · intro err s1 h1
    unfold Load
    simp only [h1]
  · intro s1 s2 m h1 h2
    unfold Load
    simp only [h1, h2]
  · intro s1 s2 rr m h1 h2 h3 h4
    unfold Load
    simp only [h1, h2]
    cases rr with
    | none => simp [h4]
    | some e =>
      cases e with
      | configFileNotFound m => simp [h4]
      | other m => exact absurd rfl (h3 m)

/-- C16: in the modelled library, with no config file in any directory, `DCE_BOT_TOKEN` set
to a token that `isValidBotToken` accepts and no other `DCE_` variable set, `Load` on a fresh
store succeeds and returns the configuration of the defaults with that token. -/
theorem Load_defaults_with_token (caseTable : Char → Char) (co : Coercion) (w : World)
    (token : String)
    (hco : co.KeepsTyped) (hfile : ∀ dir name, w.fileAt dir name = none)
    (htok : w.env "DCE_BOT_TOKEN" = some token)
    (honly : ∀ name, "DCE_".data <+: name.data → name ≠ "DCE_BOT_TOKEN" → w.env name = none)
    (hvalid : isValidBotToken token = true) :
    (Load caseTable (specViper co w) Store.fresh).1 = (some (defaultConfig token), none) ∧
    (defaultConfig token).Bot.Prefix = "!" ∧
    (defaultConfig token).Bot.MaxConcurrentCommands = 10 ∧
    (defaultConfig token).Docker.Host = "unix:///var/run/docker.sock" ∧
    (defaultConfig token).Logging.Level = "info" ∧ (defaultConfig token).Server.Port = 8080 := by
  refine ⟨?_, rfl, rfl, rfl, rfl, rfl⟩
  have hne : token ≠ "" := by
    rintro rfl
    revert hvalid; decide
  have hu : specUnmarshal co w (loadStore Store.fresh) = .ok (defaultConfig token) := by
    refine specUnmarshal_fresh_defaults co w token hco (getEnv_some w _ token htok hne) ?_
    intro key hk hkt
    have := dceName_other key hk hkt
    exact getEnv_none w _ (honly _ this.1 this.2)
  rw [Load_spec_no_file caseTable co w _ hfile, hu]
  exact (finish_ok caseTable _ _).2 ⟨rfl, defaultConfig_valid caseTable token hvalid⟩

/-- C16 at the environment of the test suite. -/
theorem Load_defaults_with_token_witness :
    (Load id (specViper plainCoercion tokenOnlyWorld) Store.fresh).1 =
      (some (defaultConfig "test.token.for.testing.purposes.only.this.is.not.real"), none) :=
  (Load_defaults_with_token id plainCoercion tokenOnlyWorld
    "test.token.for.testing.purposes.only.this.is.not.real"
    plainCoercion_keepsTyped (fun _ _ => rfl) rfl (fun _ _ hne => if_neg hne) (by decide)).1

/-- C17, the claim as worded fails: with `DCE_BOT_PREFIX` and `DCE_SERVER_HOST` present but
set to the empty text beside a valid token, `Load` succeeds and the two fields do not hold the
empty value of their variables: they keep the defaults `!` and `0.0.0.0`. -/
theorem Load_empty_variable_counterexample :
    emptyVarsWorld.env (dceName "bot.prefix") = some "" ∧
    emptyVarsWorld.env (dceName "server.host") = some "" ∧
    (∃ cfg, (Load id (specViper plainCoercion emptyVarsWorld) Store.fresh).1 = (some cfg, none) ∧
      cfg.Bot.Prefix = "!" ∧ cfg.Server.Host = "0.0.0.0" ∧
      cfg.Bot.Prefix ≠ "" ∧ cfg.Server.Host ≠ "") := by
  refine ⟨by decide, by decide,
    defaultConfig "test.token.for.testing.purposes.only.this.is.not.real", ?_, rfl, rfl,
    by decide, by decide⟩
  rw [Load_spec_no_file id plainCoercion emptyVarsWorld _ (fun _ _ => rfl),
    specUnmarshal_fresh_defaults plainCoercion emptyVarsWorld
      "test.token.for.testing.purposes.only.this.is.not.real" plainCoercion_keepsTyped
      (by decide) (by decide)]
  exact (finish_ok id _ _).2 ⟨rfl, defaultConfig_valid id _ (by decide)⟩

/-- C17, amended: in the library as `Load` configures it, with conversions that keep a value
of the declared type and read numerals and booleans, (a) whenever `Load` returns a
configuration, from any store and whatever the config file and the defaults say, each of the
18 bound keys whose variable `dceName key` is present and not empty has its field hold the
value of the variable, coerced to the type of the field: the text itself for the nine string
fields, the number for a numeral in the seven integer fields and in the float field, the
boolean in the boolean field; (b) with no config file, a valid `DCE_BOT_TOKEN`, a non-empty
`DCE_BOT_PREFIX` and no other `DCE_` variable, `Load` on a fresh store succeeds with the
defaults, that token and that prefix; (c) a variable that is present but empty counts as
unset: environments that agree on their non-empty variables load alike. -/
theorem Load_environment_overrides (caseTable : Char → Char) (co : Coercion)
    (hco : co.KeepsTyped) (hrd : co.ReadsText) :
    (∀ (w : World) (s : Store) (cfg : Config),
      (Load caseTable (specViper co w) s).1 = (some cfg, none) →
      (∀ p ∈ envFields, ∀ text, w.env (dceName p.1) = some text → text ≠ "" →
        p.2 co cfg text) ∧
      (∀ text, text ≠ "" →
        (w.env "DCE_BOT_TOKEN" = some text → cfg.Bot.Token = text) ∧
        (w.env "DCE_BOT_PREFIX" = some text → cfg.Bot.Prefix = text) ∧
        (w.env "DCE_BOT_GUILD_ID" = some text → cfg.Bot.GuildID = text) ∧
        (w.env "DCE_DOCKER_HOST" = some text → cfg.Docker.Host = text) ∧
        (w.env "DCE_DOCKER_NETWORK_NAME" = some text → cfg.Docker.NetworkName = text) ∧
        (w.env "DCE_LOGGING_LEVEL" = some text → cfg.Logging.Level = text) ∧
        (w.env "DCE_LOGGING_FORMAT" = some text → cfg.Logging.Format = text) ∧
        (w.env "DCE_LOGGING_OUTPUT_FILE" = some text → cfg.Logging.OutputFile = text) ∧
        (w.env "DCE_SERVER_HOST" = some text → cfg.Server.Host = text)) ∧
      (∀ n : Nat, n < 2 ^ 31 →
        (w.env "DCE_BOT_MAX_CONCURRENT_COMMANDS" = some (toString n) →
          cfg.Bot.MaxConcurrentCommands = n) ∧
        (w.env "DCE_DOCKER_DEFAULT_TIMEOUT" = some (toString n) →
          cfg.Docker.DefaultTimeout = n) ∧
        (w.env "DCE_DOCKER_MAX_RUNTIME" = some (toString n) → cfg.Docker.MaxRuntime = n) ∧
        (w.env "DCE_DOCKER_MEMORY_LIMIT" = some (toString n) → cfg.Docker.MemoryLimit = n) ∧
        (w.env "DCE_SERVER_PORT" = some (toString n) → cfg.Server.Port = n) ∧
        (w.env "DCE_SERVER_READ_TIMEOUT" = some (toString n) → cfg.Server.ReadTimeout = n) ∧
        (w.env "DCE_SERVER_WRITE_TIMEOUT" = some (toString n) → cfg.Server.WriteTimeout = n) ∧
        (w.env "DCE_DOCKER_CPU_LIMIT" = some (toString n) →
          cfg.Docker.CPULimit = .finite (n : ℚ))) ∧
      (∀ b : Bool, w.env "DCE_LOGGING_REPORT_CALLER" = some (toString b) →
        cfg.Logging.ReportCaller = b)) ∧
    envFields.map (fun p => p.1) = envBindings ∧
    (∀ (w : World) (token pre : String), (∀ dir name, w.fileAt dir name = none) →
      w.env "DCE_BOT_TOKEN" = some token → isValidBotToken token = true →
      w.env "DCE_BOT_PREFIX" = some pre → pre ≠ "" →
      (∀ name, "DCE_".data <+: name.data → name ≠ "DCE_BOT_TOKEN" → name ≠ "DCE_BOT_PREFIX" →
        w.env name = none) →
      (Load caseTable (specViper co w) Store.fresh).1 = (some (withPrefix token pre), none) ∧
      (withPrefix token pre).Bot.Prefix = pre) ∧
    (∀ (w w2 : World) (s : Store), w2.fileAt = w.fileAt →
      (∀ name, getEnv w2 name = getEnv w name) →
      Load caseTable (specViper co w2) s = Load caseTable (specViper co w) s) := by
  refine ⟨?_, rfl, ?_, ?_⟩
  · intro w s cfg hload
    obtain ⟨t, ha, hp, hr, hb, hu, -⟩ := Load_spec_ok caseTable co w s cfg hload
    have f := specUnmarshal_ok co w t cfg hu
    have env : ∀ key text, key ∈ envBindings → w.env (dceName key) = some text → text ≠ "" →
        setting w t key = some (.str text) :=
      fun key text hk he hne => setting_env w t key text ha hp hr hb hk he hne
    obtain ⟨f1, f2, f3, f4, f5, f6, f7, f8, f9, f10, f11, f12, f13, f14, f15, f16, f17, f18⟩ := f
    have strs : ∀ (text field : String), co.toStr (.str text) = .ok field → field = text :=
      fun text field h => (Except.ok.inj ((hco.1 text).symm.trans h)).symm
    have ints : ∀ (n : Nat) (field : Int), n < 2 ^ 31 →
        co.toInt (.str (toString n)) = .ok field → field = n :=
      fun n field hn h => (Except.ok.inj ((hrd.1 n hn).symm.trans h)).symm
    refine ⟨?_, ?_, ?_, ?_⟩
    · intro p hp text he hne
      simp only [envFields, List.mem_cons, List.mem_singleton, List.not_mem_nil, or_false] at hp
      rcases hp with e | e | e | e | e | e | e | e | e | e | e | e | e | e | e | e | e | e <;>
        subst e <;> have hr := env _ text (by decide) he hne
      · rw [hr] at f1; exact f1
      · rw [hr] at f2; exact f2
      · rw [hr] at f3; exact f3
      · rw [hr] at f4; exact f4
      · rw [hr] at f5; exact f5
      · rw [hr] at f8; exact f8
      · rw [hr] at f9; exact f9
      · rw [hr] at f10; exact f10
      · rw [hr] at f7; exact f7
      · rw [hr] at f6; exact f6
      · rw [hr] at f11; exact f11
      · rw [hr] at f12; exact f12
      · rw [hr] at f13; exact f13
      · rw [hr] at f14; exact f14
      · rw [hr] at f15; exact f15
      · rw [hr] at f16; exact f16
      · rw [hr] at f17; exact f17
      · rw [hr] at f18; exact f18
    · intro text hne
      refine ⟨?_, ?_, ?_, ?_, ?_, ?_, ?_, ?_, ?_⟩
      · intro he; have hr := env "bot.token" text (by decide) he hne
        rw [hr] at f1; exact strs _ _ f1
      · intro he; have hr := env "bot.prefix" text (by decide) he hne
        rw [hr] at f2; exact strs _ _ f2
      · intro he; have hr := env "bot.guild_id" text (by decide) he hne
        rw [hr] at f3; exact strs _ _ f3
      · intro he; have hr := env "docker.host" text (by decide) he hne
        rw [hr] at f5; exact strs _ _ f5
      · intro he; have hr := env "docker.network_name" text (by decide) he hne
        rw [hr] at f6; exact strs _ _ f6
      · intro he; have hr := env "logging.level" text (by decide) he hne
        rw [hr] at f11; exact strs _ _ f11
      · intro he; have hr := env "logging.format" text (by decide) he hne
        rw [hr] at f12; exact strs _ _ f12
      · intro he; have hr := env "logging.output_file" text (by decide) he hne
        rw [hr] at f13; exact strs _ _ f13
      · intro he; have hr := env "server.host" text (by decide) he hne
        rw [hr] at f15; exact strs _ _ f15
    · intro n hn
      have hne := toString_nat_ne_empty n
      refine ⟨?_, ?_, ?_, ?_, ?_, ?_, ?_, ?_⟩
      · intro he; have hr := env "bot.max_concurrent_commands" _ (by decide) he hne
        rw [hr] at f4; exact ints _ _ hn f4
      · intro he; have hr := env "docker.default_timeout" _ (by decide) he hne
        rw [hr] at f8; exact ints _ _ hn f8
      · intro he; have hr := env "docker.max_runtime" _ (by decide) he hne
        rw [hr] at f9; exact ints _ _ hn f9
      · intro he; have hr := env "docker.memory_limit" _ (by decide) he hne
        rw [hr] at f10; exact ints _ _ hn f10
      · intro he; have hr := env "server.port" _ (by decide) he hne
        rw [hr] at f16; exact ints _ _ hn f16
      · intro he; have hr := env "server.read_timeout" _ (by decide) he hne
        rw [hr] at f17; exact ints _ _ hn f17
      · intro he; have hr := env "server.write_timeout" _ (by decide) he hne
        rw [hr] at f18; exact ints _ _ hn f18
      · intro he; have hr := env "docker.cpu_limit" _ (by decide) he hne
        rw [hr] at f7
        exact (Except.ok.inj ((hrd.2.1 n hn).symm.trans f7)).symm
    · intro b he
      have hne : toString b ≠ "" := by cases b <;> decide
      have hr := env "logging.report_caller" _ (by decide) he hne
      rw [hr] at f14
      cases b
      · exact (Except.ok.inj (hrd.2.2.2.symm.trans f14)).symm
      · exact (Except.ok.inj (hrd.2.2.1.symm.trans f14)).symm
  · intro w token pre hfile htok hvalid hpre hne honly
    refine ⟨?_, rfl⟩
    have htne : token ≠ "" := by
      rintro rfl
      revert hvalid; decide
    have hu : specUnmarshal co w (loadStore Store.fresh) = .ok (withPrefix token pre) := by
      refine specUnmarshal_fresh_prefix co w token pre hco (getEnv_some w _ token htok htne)
        (getEnv_some w _ pre hpre hne) ?_
      intro key hk hkt hkp
      have := dceName_other key hk hkt
      have hp2 := dceName_prefix key hk hkp
      exact getEnv_none w _ (honly _ this.1 this.2 hp2)
    rw [Load_spec_no_file caseTable co w _ hfile, hu]
    exact (finish_ok caseTable _ _).2 ⟨rfl, withPrefix_valid caseTable token pre hvalid hne⟩
  · intro w w2 s hf he
    exact Load_congr caseTable co w w2 s hf he

/-- C17 at `TestEnvironmentVariableOverrides` with typed variables and a config file added
(the variables win), at that test cut down to token and prefix, and at an environment with
two empty variables, which loads like the one without them. -/
theorem Load_environment_overrides_witness :
    plainCoercion.KeepsTyped ∧ plainCoercion.ReadsText ∧
    (Load id (specViper plainCoercion overridesWorld) Store.fresh).1 =
      (some overridesConfig, none) ∧
    overridesConfig.Bot.Prefix = ">>" ∧ overridesConfig.Docker.Host = "tcp://localhost:2376" ∧
    overridesConfig.Logging.Level = "debug" ∧ overridesConfig.Server.Port = ((9090 : Nat) : Int) ∧
    overridesConfig.Docker.CPULimit = .finite ((2 : Nat) : ℚ) ∧
    overridesConfig.Logging.ReportCaller = true ∧
    (Load id (specViper plainCoercion prefixWorld) Store.fresh).1 =
      (some (withPrefix "env.test.token.for.testing.purposes.only.not.real" ">>"), none) ∧
    Load id (specViper plainCoercion emptyVarsWorld) Store.fresh =
      Load id (specViper plainCoercion tokenOnlyWorld) Store.fresh :=
  have h := Load_environment_overrides id plainCoercion plainCoercion_keepsTyped
    plainCoercion_readsText
  have a := h.1 overridesWorld Store.fresh overridesConfig overridesWorld_load
  ⟨plainCoercion_keepsTyped, plainCoercion_readsText, overridesWorld_load,
   (a.2.1 ">>" (by decide)).2.1 rfl,
   (a.2.1 "tcp://localhost:2376" (by decide)).2.2.2.1 rfl,
   (a.2.1 "debug" (by decide)).2.2.2.2.2.1 rfl,
   (a.2.2.1 9090 (by decide)).2.2.2.2.1 rfl,
   (a.2.2.1 2 (by decide)).2.2.2.2.2.2.2 rfl,
   a.2.2.2 true rfl,
   (h.2.2.1 prefixWorld "env.test.token.for.testing.purposes.only.not.real" ">>"
     (fun _ _ => rfl) rfl (by decide) rfl (by decide)
     (fun _ _ h1 h2 => (if_neg h1).trans (if_neg h2))).1,
   h.2.2.2 tokenOnlyWorld emptyVarsWorld Store.fresh rfl emptyVarsWorld_getEnv⟩

/-- C18: in the modelled library, with no config file in any directory, a second `Load`,
run in the store the first one left behind and in the same environment, returns what the
first one returned: the same configuration or the same error. -/
theorem Load_twice_agrees (caseTable : Char → Char) (co : Coercion) (w : World) (s : Store)
    (h : ∀ dir name, w.fileAt dir name = none) :
    (Load caseTable (specViper co w) (Load caseTable (specViper co w) s).2).1 =
      (Load caseTable (specViper co w) s).1 := by
  rw [Load_spec_no_file caseTable co w s h, Load_spec_no_file caseTable co w _ h,
    specUnmarshal_loadStore_twice]

/-- C18 at the environment of the test suite, from a fresh store. -/
theorem Load_twice_agrees_witness :
    (Load id (specViper plainCoercion tokenOnlyWorld)
      (Load id (specViper plainCoercion tokenOnlyWorld) Store.fresh).2).1 =
    (Load id (specViper plainCoercion tokenOnlyWorld) Store.fresh).1 :=
  Load_twice_agrees id plainCoercion tokenOnlyWorld Store.fresh (fun _ _ => rfl)

/-- C19: every token that `isValidBotToken` accepts has a length, `len`, of at least
`MinTokenLength = 10`, on either branch, so the empty token is never accepted; for a token of
ASCII characters the length is its number of characters. -/
theorem isValidBotToken_min_length (token : String) (h : isValidBotToken token = true) :
    MinTokenLength ≤ len token ∧ token ≠ "" ∧
    ((∀ c ∈ token.data, c.toNat ≤ 127) → 10 ≤ token.length) := by
  have h1 : MinTokenLength ≤ len token := by
    cases ht : Contains token "test"
    · rw [isValidBotToken_real token ht] at h
      by_cases hl : len token < MinRealTokenLength
      · simp [hl] at h
      · simp only [MinRealTokenLength, MinTokenLength] at hl ⊢; omega
    · rw [isValidBotToken_test token ht] at h
      simpa using h
  refine ⟨h1, ?_, fun ha => ?_⟩
  · rintro rfl
    revert h1; decide
  · rw [len_eq, utf8Len_ascii _ ha] at h1
    exact h1

/-- C19 at the token `test-token`. -/
theorem isValidBotToken_min_length_witness :
    isValidBotToken "test-token" = true ∧ MinTokenLength ≤ len "test-token" :=
  ⟨by decide, (isValidBotToken_min_length "test-token" (by decide)).1⟩

/-- C20: in a message of `validateConfig` every field has at most one of its fragments: the
lower-bound and the upper-bound fragment of a numeric field never occur together, nor do
`bot token is required` and `bot token appears to be invalid format`; so the message holds
at most 14 fragments, one for each of the 14 constrained fields (3 bot, 6 docker, 2 logging,
3 server). -/
theorem validateConfig_one_fragment_per_field (caseTable : Char → Char) (c : Config)
    (msg : String)
    (h : validateConfig caseTable c = some msg) :
    (∀ group ∈ fieldFragments, (group.filter (fun f => Contains msg f)).length ≤ 1) ∧
    ¬ (Contains msg "bot token is required (set DCE_BOT_TOKEN environment variable)" = true ∧
       Contains msg "bot token appears to be invalid format" = true) ∧
    (fragmentsIn caseTable msg).length ≤ 14 ∧ semis msg + 1 ≤ 14 ∧
    fieldFragments.length = 14 ∧
    fieldFragments.flatten = (rules caseTable).map (fun r => r.fragment) := by
  rcases validateConfig_checks caseTable c with ⟨h0, -⟩ | ⟨m, hm, h1, h2, -⟩
  · rw [h0] at h; cases h
  have em : m = msg := Option.some.inj (hm.symm.trans h)
  subst em
  have ex : ∀ r s : Rule, r ∈ checks caseTable → s ∈ checks caseTable →
      ¬ (r.violated c = true ∧ s.violated c = true) →
      ¬ (Contains m r.fragment = true ∧ Contains m s.fragment = true) := by
    intro r s hr hs hn hc
    exact hn ⟨(h1 r hr).1 hc.1, (h1 s hs).1 hc.2⟩
  have tok := ex ⟨fun c => c.Bot.Token = "",
      "bot token is required (set DCE_BOT_TOKEN environment variable)"⟩
    ⟨fun c => c.Bot.Token ≠ "" ∧ isValidBotToken c.Bot.Token = false,
      "bot token appears to be invalid format"⟩
    (by simp [checks, botRules]) (by simp [checks, botRules]) (by simp; tauto)
  have mcc := ex ⟨fun c => c.Bot.MaxConcurrentCommands < 1,
      "max concurrent commands must be at least 1"⟩
    ⟨fun c => c.Bot.MaxConcurrentCommands > 100, "max concurrent commands should not exceed 100"⟩
    (by simp [checks, botRules]) (by simp [checks, botRules])
    (by simp only [decide_eq_true_eq]; omega)
  have dt := ex ⟨fun c => c.Docker.DefaultTimeout < 1, "default timeout must be at least 1 second"⟩
    ⟨fun c => c.Docker.DefaultTimeout > 3600, "default timeout should not exceed 1 hour"⟩
    (by simp [checks, dockerChecks]) (by simp [checks, dockerChecks])
    (by simp only [decide_eq_true_eq]; omega)
  have mr := ex ⟨fun c => c.Docker.MaxRuntime < 1, "max runtime must be at least 1 second"⟩
    ⟨fun c => c.Docker.MaxRuntime > 7200, "max runtime should not exceed 2 hours"⟩
    (by simp [checks, dockerChecks]) (by simp [checks, dockerChecks])
    (by simp only [decide_eq_true_eq]; omega)
  have mem := ex ⟨fun c => c.Docker.MemoryLimit < 16, "memory limit must be at least 16 MB"⟩
    ⟨fun c => c.Docker.MemoryLimit > 4096, "memory limit should not exceed 4096 MB"⟩
    (by simp [checks, dockerChecks]) (by simp [checks, dockerChecks])
    (by simp only [decide_eq_true_eq]; omega)
  have cpu := ex ⟨fun c => Float64.le c.Docker.CPULimit (.finite 0),
      "CPU limit must be greater than 0"⟩
    ⟨fun c => Float64.gt c.Docker.CPULimit (.finite 8), "CPU limit should not exceed 8.0"⟩
    (by simp [checks, dockerChecks]) (by simp [checks, dockerChecks])
    (Float64_low_high c.Docker.CPULimit)
  have rt := ex ⟨fun c => c.Server.ReadTimeout < 1, "read timeout must be at least 1 second"⟩
    ⟨fun c => c.Server.ReadTimeout > 300, "read timeout should not exceed 300 seconds"⟩
    (by simp [checks, serverRules]) (by simp [checks, serverRules])
    (by simp only [decide_eq_true_eq]; omega)
  have wt := ex ⟨fun c => c.Server.WriteTimeout < 1, "write timeout must be at least 1 second"⟩
    ⟨fun c => c.Server.WriteTimeout > 300, "write timeout should not exceed 300 seconds"⟩
    (by simp [checks, serverRules]) (by simp [checks, serverRules])
    (by simp only [decide_eq_true_eq]; omega)
  refine ⟨?_, tok, ?_, ?_, rfl, rfl⟩
  · intro group hg
    simp only [fieldFragments, List.mem_cons, List.mem_singleton, List.not_mem_nil,
      or_false] at hg
    rcases hg with e | e | e | e | e | e | e | e | e | e | e | e | e | e <;> subst e
    · exact pair_filter_le _ _ _ tok
    · exact single_filter_le _ _
    · exact pair_filter_le _ _ _ mcc
    · exact single_filter_le _ _
    · exact pair_filter_le _ _ _ dt
    · exact pair_filter_le _ _ _ mr
    · exact pair_filter_le _ _ _ mem
    · exact pair_filter_le _ _ _ cpu
    · exact single_filter_le _ _
    · exact single_filter_le _ _
    · exact single_filter_le _ _
    · exact single_filter_le _ _
    · exact pair_filter_le _ _ _ rt
    · exact pair_filter_le _ _ _ wt
  · rw [fragmentsIn_checks caseTable c m h1]; exact report_checks_le caseTable c
  · rw [h2]; exact report_checks_le caseTable c

/-- C20 at the all-zero configuration, whose message holds 14 fragments. -/
theorem validateConfig_one_fragment_per_field_witness :
    validateConfig id zeroConfig = some zeroMessage ∧
    (fragmentsIn id zeroMessage).length ≤ 14 ∧ semis zeroMessage + 1 ≤ 14 ∧
    ¬ (Contains zeroMessage "bot token is required (set DCE_BOT_TOKEN environment variable)" =
        true ∧ Contains zeroMessage "bot token appears to be invalid format" = true) :=
  have h := validateConfig_one_fragment_per_field id zeroConfig zeroMessage zeroMessage_eq
  ⟨zeroMessage_eq, h.2.2.1, h.2.2.2.1, h.2.1⟩

end DiscordConfig
